import Mathlib

/-!
Verification of the deal-finder scraping adapters (eBay, Newegg, Facebook
Marketplace) against their natural-language specification.

The development shallowly embeds the three adapter modules
(`src/scrapers/sites/ebay.py`, `newegg.py`, `facebook.py`).  Pure string and
regex work is translated directly; effectful operations (HTTP requests,
browser automation, CSS selector engines) are abstracted as environment
oracles, so every theorem quantifies over all possible outcomes of those
operations.  Python exceptions are modelled with `Except String`, Python
`None`-able values with `Option`, Python dicts with association lists, and
Python floats with exact rationals (the price strings handled by the code
denote terminating decimals, which `Float` parsing and printing round-trips).
-/

/-- Characters of a string (model of iterating over a Python `str`). -/
def strChars (s : String) : List Char := s.data

/-- String from characters. -/
def ofChars (cs : List Char) : String := String.mk cs

/-- Model of Python `str.strip()`: drop whitespace from both ends. -/
def pyStrip (s : String) : String :=
  ofChars ((((strChars s).dropWhile Char.isWhitespace).reverse.dropWhile
    Char.isWhitespace).reverse)

/-- Model of Python `str.lower()` for the ASCII texts the scrapers handle. -/
def pyLower (s : String) : String :=
  ofChars ((strChars s).map Char.toLower)

/-- Model of Python `str.replace(",", "")`: delete every comma. -/
def stripCommasL (cs : List Char) : List Char := cs.filter (fun c => c ≠ ',')

/-- String-level comma removal. -/
def stripCommasS (s : String) : String := ofChars (stripCommasL (strChars s))

/-- Decide whether `p` is a prefix of `cs`. -/
def listIsPre (p cs : List Char) : Bool := p.isPrefixOf cs

/-- Model of Python `sub in s` (substring containment). -/
def containsSubL (sub : List Char) : List Char → Bool
  | [] => sub.isEmpty
  | c :: rest => listIsPre sub (c :: rest) || containsSubL sub rest

/-- String-level substring containment, `sub in s` in Python. -/
def containsSub (s sub : String) : Bool := containsSubL (strChars sub) (strChars s)

/-- Model of Python `s.startswith(p)`. -/
def strStartsWith (s p : String) : Bool := listIsPre (strChars p) (strChars s)

/-- Splitter for Python `str.split()` with no argument: whitespace runs
separate the words and empty words are dropped. -/
def wsSplitAux : List Char → List Char → List (List Char)
  | [], acc => if acc.isEmpty then [] else [acc.reverse]
  | c :: rest, acc =>
      if c.isWhitespace then
        if acc.isEmpty then wsSplitAux rest [] else acc.reverse :: wsSplitAux rest []
      else wsSplitAux rest (c :: acc)

/-- Model of Python `keywords.split()`. -/
def pySplitWs (s : String) : List String := (wsSplitAux (strChars s) []).map ofChars

/-- Model of Python `sep.join(xs)`. -/
def pyJoin (sep : String) : List String → String
  | [] => ""
  | [x] => x
  | x :: y :: xs => x ++ sep ++ pyJoin sep (y :: xs)

/-- Splitter for Python `str.split(ch)` (keeps empty pieces). -/
def splitCharAux (ch : Char) : List Char → List Char → List String
  | [], acc => [ofChars acc.reverse]
  | c :: rest, acc =>
      if c = ch then ofChars acc.reverse :: splitCharAux ch rest []
      else splitCharAux ch rest (c :: acc)

/-- Model of Python `s.split(ch)` for a one-character separator. -/
def pySplitChar (s : String) (ch : Char) : List String := splitCharAux ch (strChars s) []

/-- Model of Python `len(s)`. -/
def strLen (s : String) : Nat := (strChars s).length

/-- Decimal digit character for `d < 10`. -/
def digitChar (d : Nat) : Char := Char.ofNat (48 + d)

/-- Digit-list rendering of a natural number, most significant first; `fuel`
bounds the recursion and any `fuel > n` is enough. -/
def natDigits : Nat → Nat → List Char → List Char
  | 0, _, acc => acc
  | fuel + 1, n, acc =>
      let acc := digitChar (n % 10) :: acc
      if n < 10 then acc else natDigits fuel (n / 10) acc

/-- Decimal rendering of a natural number (model of Python `str(n)`). -/
def natToStr (n : Nat) : String := ofChars (natDigits (n + 1) n [])

/-- Two-digit zero-padded rendering for cents (`m < 100` in every use): the
tens digit then the ones digit. -/
def pad2 (m : Nat) : String :=
  ofChars [digitChar (m / 10 % 10), digitChar (m % 10)]

/-- Rendering of a whole number of cents as a two-decimal price string, e.g.
`renderCents 129999 = "1299.99"`.  This is the decimal rendering of the
rational `c / 100` with two digits after the point. -/
def renderCents (c : Nat) : String := natToStr (c / 100) ++ "." ++ pad2 (c % 100)

/-- Model of Python float formatting with `:.2f` for the nonnegative prices
the adapters handle: the integer division computes `⌊q * 100 + 1 / 2⌋`, i.e.
rounding half up to whole cents (the adapters only ever format exact cent
amounts, where no rounding occurs). -/
def fmt2 (q : ℚ) : String :=
  renderCents (Int.toNat ((q.num * 200 + q.den) / (2 * q.den)))

/-- Value of a digit list (most significant first). -/
def digitsVal (cs : List Char) : Nat :=
  cs.foldl (fun a c => a * 10 + (c.toNat - 48)) 0

/-- Model of Python `float(s)` restricted to the shapes the scrapers feed it:
an optional integer part, an optional `.`, an optional fractional part, at
least one digit overall (exotic notations such as exponents, signs or
underscores never reach `float` in these code paths and are out of the
model's domain).  The result is the exact decimal as a rational,
`intpart + fracpart / 10 ^ len` written as one integer fraction. -/
def pyFloat (s : String) : Option ℚ :=
  let cs := strChars s
  let ip := cs.takeWhile Char.isDigit
  match cs.drop ip.length with
  | [] => if ip.isEmpty then none else some (digitsVal ip : ℚ)
  | '.' :: rest =>
      let fp := rest.takeWhile Char.isDigit
      if rest.drop fp.length ≠ [] then none
      else if ip.isEmpty ∧ fp.isEmpty then none
      else
        some (Rat.divInt (digitsVal ip * 10 ^ fp.length + digitsVal fp)
          (10 ^ fp.length))
  | _ => none

/-- Whether a character matches the regex class `[0-9,]`. -/
def isDigitOrComma (c : Char) : Bool := c.isDigit || c = ','

/-- Match of the regex fragment `[0-9,]+\.[0-9]{2}` anchored at the head of
`cs`, returning the matched text.  The quantifier is greedy; no backtracking
can occur because `.` is not in the class `[0-9,]`. -/
def matchP1At (cs : List Char) : Option (List Char) :=
  let run := cs.takeWhile isDigitOrComma
  if run.isEmpty then none
  else
    match cs.drop run.length with
    | '.' :: d1 :: d2 :: _ =>
        if d1.isDigit && d2.isDigit then some (run ++ ['.', d1, d2]) else none
    | _ => none

/-- Leftmost search for the regex `\$([0-9,]+\.[0-9]{2})`, returning group 1
(the regex used at `newegg.py:399`). -/
def searchDollarP1 : List Char → Option (List Char)
  | [] => none
  | '$' :: rest =>
      match matchP1At rest with
      | some g => some g
      | none => searchDollarP1 rest
  | _ :: rest => searchDollarP1 rest

/-- Leftmost search for the regex `([0-9,]+\.[0-9]{2})` (the fallback regex
at `newegg.py:412`). -/
def searchAnyP1 : List Char → Option (List Char)
  | [] => none
  | c :: rest =>
      match matchP1At (c :: rest) with
      | some g => some g
      | none => searchAnyP1 rest

/-- Match of `[\d,]+\.?\d*` anchored at the head of `cs` (group 1 of the
regex at `newegg.py:533/597`). -/
def matchP3At (cs : List Char) : Option (List Char) :=
  let run := cs.takeWhile isDigitOrComma
  if run.isEmpty then none
  else
    match cs.drop run.length with
    | '.' :: rest2 => some (run ++ '.' :: rest2.takeWhile Char.isDigit)
    | _ => some run

/-- Leftmost search for `\$?([\d,]+\.?\d*)`, returning group 1. -/
def searchP3 : List Char → Option (List Char)
  | [] => none
  | '$' :: rest =>
      match matchP3At rest with
      | some g => some g
      | none => searchP3 rest
  | c :: rest =>
      match matchP3At (c :: rest) with
      | some g => some g
      | none => searchP3 rest

/-- Match of `[0-9,]+(\.[0-9]{2})?` anchored at the head of `cs` (group 1 of
the regex at `facebook.py:241/301`). -/
def matchP4At (cs : List Char) : Option (List Char) :=
  let run := cs.takeWhile isDigitOrComma
  if run.isEmpty then none
  else
    match cs.drop run.length with
    | '.' :: d1 :: d2 :: _ =>
        if d1.isDigit && d2.isDigit then some (run ++ ['.', d1, d2]) else some run
    | _ => some run

/-- Leftmost search for `\$([0-9,]+(\.[0-9]{2})?)`, returning group 1. -/
def searchP4 : List Char → Option (List Char)
  | [] => none
  | '$' :: rest =>
      match matchP4At rest with
      | some g => some g
      | none => searchP4 rest
  | _ :: rest => searchP4 rest

/-- Values carried by a product dictionary: Python strings, numbers, `None`,
lists of strings (specs) and integers (ratings). -/
inductive PVal : Type where
  | str : String → PVal
  | num : ℚ → PVal
  | int : Int → PVal
  | strList : List String → PVal
  | nil : PVal
deriving DecidableEq, Repr

/-- A Python dict, as the association list of its insertion-ordered items. -/
abbrev Dict : Type := List (String × PVal)

/-- Lookup of a key in a dict (`d.get(k)` in Python). -/
def dget (d : Dict) (k : String) : Option PVal :=
  (d.find? (fun p => p.1 = k)).map (fun p => p.2)

/-- Abstract DOM element.  `txt` is the text content (BeautifulSoup `.text`,
Playwright `inner_text()`), `attrs` the attribute map, and `one`/`many` give
the outcome of `select_one`/`query_selector` and `select`/`query_selector_all`
for each selector string, abstracting the CSS engine. -/
inductive Elem : Type where
  | node (txt : String) (attrs : List (String × String))
      (one : String → Option Elem) (many : String → List Elem)

/-- Text content of an element. -/
def Elem.text : Elem → String
  | .node t _ _ _ => t

/-- Attribute lookup (`e['k']` / `e.get('k')` / `get_attribute('k')`). -/
def Elem.attr : Elem → String → Option String
  | .node _ as _ _, k => (as.find? (fun p => p.1 = k)).map (fun p => p.2)

/-- Single-element selector query (`select_one` / `query_selector`). -/
def Elem.sel : Elem → String → Option Elem
  | .node _ _ o _, s => o s

/-- Multi-element selector query (`select` / `query_selector_all`). -/
def Elem.selAll : Elem → String → List Elem
  | .node _ _ _ m, s => m s

/-- Element with no selector matches, handy for concrete test pages. -/
def Elem.leaf (t : String) (attrs : List (String × String)) : Elem :=
  .node t attrs (fun _ => none) (fun _ => [])

/-- Python `a or b` on two optional elements (a found tag is always truthy). -/
def orO (x y : Option Elem) : Option Elem :=
  match x with
  | some e => some e
  | none => y

/-- Python `xs or ys` on two element lists (empty list is falsy). -/
def orL (xs ys : List Elem) : List Elem := if xs.isEmpty then ys else xs

/-- Loop `for s in sels: e = q(s); if e: break`, yielding the loop variable's
final value. -/
def firstSome (q : Elem) : List String → Option Elem
  | [] => none
  | s :: rest =>
      match q.sel s with
      | some e => some e
      | none => firstSome q rest

/-- Loop `for s in sels: r = qAll(s); if r: break`, yielding the final value. -/
def firstNonempty (doc : Elem) : List String → List Elem
  | [] => []
  | s :: rest =>
      let r := doc.selAll s
      if r.isEmpty then firstNonempty doc rest else r

/-- Python `try: body except: handler` at the expression level. -/
def tryCatchE {α : Type} (body handler : Except String α) : Except String α :=
  match body with
  | .ok a => .ok a
  | .error _ => handler

/-! ## eBay adapter (`src/scrapers/sites/ebay.py`) -/

/-- Base search URL of `EbayScraper`. -/
def ebayBaseUrl : String := "https://www.ebay.com/sch/i.html?_nkw="

/-- Location filter argument of `search` (a dict with optional `zipcode` and
`distance` entries; `distance` defaults to 25). -/
structure Loc where
  zipcode : Option String
  distance : Option Nat

/-- Simplified model of Python `str(float)` used only to build the backup URL
(`f"&_udhi={max_price}"`), exact on whole numbers; the claims never inspect
this rendering. -/
def pyFloatRepr (q : ℚ) : String :=
  if q.den = 1 then natToStr q.num.toNat ++ ".0" else fmt2 q

/-- URL construction of `EbayScraper.search` (ebay.py lines 26-44): joined
keywords, `_udhi` price cap formatted with two decimals, `LH_ItemCondition`
codes, and optional location parameters. -/
def ebaySearchUrl (keywords : String) (max_price : Option ℚ)
    (condition : Option String) (location : Option Loc) : String :=
  let url := ebayBaseUrl ++ pyJoin "+" (pySplitWs keywords)
  let url :=
    match max_price with
    | some p => if p ≠ 0 then url ++ "&_udhi=" ++ fmt2 p else url
    | none => url
  let url :=
    match condition with
    | some c =>
        if c ≠ "" then
          if pyLower c = "new" then url ++ "&LH_ItemCondition=1000"
          else if pyLower c = "used" then url ++ "&LH_ItemCondition=3000"
          else url
        else url
    | none => url
  match location with
  | some loc =>
      match loc.zipcode with
      | some z =>
          url ++ "&_stpos=" ++ z ++ "&_localstpos=" ++ z
            ++ "&_sadis=" ++ natToStr (loc.distance.getD 25) ++ "&LH_PrefLoc=1"
      | none => url
  | none => url

/-- Backup URL of `EbayScraper.search` (ebay.py lines 47-49). -/
def ebayBackupUrl (keywords : String) (max_price : Option ℚ) : String :=
  let url := ebayBaseUrl ++ pyJoin "+" (pySplitWs keywords)
  match max_price with
  | some p => if p ≠ 0 then url ++ "&_udhi=" ++ pyFloatRepr p else url
  | none => url

/-- Detail-span scan of `EbayScraper._parse_product` (ebay.py lines 187-193):
first `.s-item__detail span` whose stripped text is a known condition word. -/
def ebayDetailCondition (e : Elem) : Option Elem :=
  (e.selAll ".s-item__detail span").find? (fun el =>
    pyStrip el.text ∈ ["New", "Used", "Pre-Owned", "Refurbished", "Open Box"])

/-- Condition extraction of `EbayScraper._parse_product` (ebay.py lines
179-193 and 219): the selector fallbacks, the detail-span rescue when the
found element has blank text, and the "Not specified" default. -/
def ebayConditionOf (e : Elem) : String :=
  let condition_elem0 := orO (e.sel ".SECONDARY_INFO")
    (orO (e.sel ".s-item__subtitle") (e.sel "span[class*=\"condition\"]"))
  let condition_elem :=
    match condition_elem0 with
    | some ce =>
        if pyStrip ce.text = "" then
          match ebayDetailCondition e with
          | some d => some d
          | none => some ce
        else some ce
    | none => ebayDetailCondition e
  match condition_elem with
  | some ce => pyStrip ce.text
  | none => "Not specified"

/-- Shipping extraction of `EbayScraper._parse_product` (ebay.py lines
196-200 and 220). -/
def ebayShippingOf (e : Elem) : String :=
  match orO (e.sel ".s-item__shipping")
      (orO (e.sel ".s-item__logisticsCost") (e.sel "span[class*=\"shipping\"]")) with
  | some se => pyStrip se.text
  | none => "Not specified"

/-- Image extraction of `EbayScraper._parse_product` (ebay.py lines 203-207
and 221): the `src` attribute or Python `None`. -/
def ebayImageOf (e : Elem) : PVal :=
  match orO (e.sel ".s-item__image-img")
      (orO (e.sel "img[class*=\"s-item\"]") (e.sel "img")) with
  | some ie =>
      match ie.attr "src" with
      | some s => PVal.str s
      | none => PVal.nil
  | none => PVal.nil

/-- Embedding of `EbayScraper._parse_product` (ebay.py lines 154-234): the
per-field selector fallbacks, the mandatory title/price/link check, the
"Shop on eBay" placeholder filter, and the literal result dict.  A `KeyError`
on the link's `href` is caught by the method's `except` and yields `None`. -/
def ebayParseProduct (e : Elem) : Option Dict :=
  let title_elem := orO (e.sel ".s-item__title")
    (orO (e.sel ".item-title") (e.sel "h3[class*=\"title\"]"))
  let price_elem := orO (e.sel ".s-item__price")
    (orO (e.sel ".item-price") (e.sel "span[class*=\"price\"]"))
  let link_elem := orO (e.sel "a.s-item__link")
    (orO (e.sel "a[class*=\"item__link\"]") (e.sel "a[href*=\"itm/\"]"))
  match title_elem, price_elem, link_elem with
  | some te, some pe, some le =>
      let title := pyStrip te.text
      if pyLower title = "shop on ebay" ∨ title = "" then none
      else
        let price := pyStrip pe.text
        match le.attr "href" with
        | none => none
        | some url =>
            some [("title", .str title), ("price", .str price), ("url", .str url),
              ("condition", .str (ebayConditionOf e)),
              ("shipping", .str (ebayShippingOf e)),
              ("image", ebayImageOf e)]
  | _, _, _ => none

/-- Listing loop of `EbayScraper._parse_search_results` (ebay.py lines
137-149): skip "More items like this" placeholders, parse each listing,
keep the truthy results; per-listing errors are absorbed. -/
def ebayProcessListings (ls : List Elem) : List Dict :=
  ls.filterMap (fun l =>
    if containsSub l.text "More items like this" then none
    else ebayParseProduct l)

/-- Embedding of `EbayScraper._parse_search_results` (ebay.py lines 111-152):
captcha/anti-bot short-circuit, primary `li.s-item` container selector with
the `or`-chained alternatives, then the listing loop.  `soup` abstracts the
HTML parser, mapping the page text to its queryable DOM. -/
def ebayParseSearchResults (soup : String → Elem) (html : String) : List Dict :=
  if containsSub (pyLower html) "robot" || containsSub (pyLower html) "captcha" then []
  else
    let doc := soup html
    let listings := doc.selAll "li.s-item"
    let listings :=
      if listings.isEmpty then
        orL (doc.selAll ".srp-results .s-item")
          (orL (doc.selAll ".srp-list .s-item")
            (doc.selAll "[data-view=\"mi:1686|iid:1\"]"))
      else listings
    ebayProcessListings listings

/-- Environment of the eBay adapter: the outcome of `requests.get` (body text
or raised exception) per URL, and the HTML parser. -/
structure ScrapeEnv where
  http : String → Except String String
  soup : String → Elem

/-- Embedding of `EbayScraper.search` (ebay.py lines 12-109) in the exception
monad: URL construction (outside any handler), the primary attempt with its
`try/except`, the backup attempt when the primary failed or parsed nothing,
and the final product list. -/
def ebaySearchE (env : ScrapeEnv) (keywords : String) (max_price : Option ℚ)
    (condition : Option String) (location : Option Loc) :
    Except String (List Dict) := do
  let url := ebaySearchUrl keywords max_price condition location
  let backup := ebayBackupUrl keywords max_price
  let products ← tryCatchE
    (do
      let body ← env.http url
      pure (ebayParseSearchResults env.soup body))
    (pure [])
  if products.isEmpty then
    tryCatchE
      (do
        let body ← env.http backup
        pure (ebayParseSearchResults env.soup body))
      (pure [])
  else pure products

/-! ## Newegg adapter (`src/scrapers/sites/newegg.py`) -/

/-- Base search URL of `NeweggScraper`. -/
def neweggBaseUrl : String := "https://www.newegg.com/p/pl?d="

/-- URL construction of `NeweggScraper.search` (newegg.py lines 37-51):
joined keywords, price range filter, and the three condition filter codes. -/
def neweggSearchUrl (keywords : String) (max_price : Option ℚ)
    (condition : Option String) : String :=
  let url := neweggBaseUrl ++ pyJoin "+" (pySplitWs keywords)
  let url :=
    match max_price with
    | some p => if p ≠ 0 then url ++ "&Price=%7B0%7D+TO+" ++ pyFloatRepr p else url
    | none => url
  match condition with
  | some c =>
      if c ≠ "" then
        if pyLower c = "new" then url ++ "&N=100167671"
        else if pyLower c = "refurbished" then url ++ "&N=100167670"
        else if pyLower c = "used" then url ++ "&N=100167669"
        else url
      else url
  | none => url

/-- Captcha content heuristic shared by `_try_regular_request` and
`_parse_search_results` (newegg.py lines 96 and 283). -/
def neweggCaptchaText (html : String) : Bool :=
  containsSub (pyLower html) "robot" || containsSub (pyLower html) "captcha"
    || containsSub (pyLower html) "verify you are a human"

/-- Alternative container selectors of `_parse_search_results`
(newegg.py lines 293-308). -/
def neweggAltSelectors : List String :=
  ["div.product-card", "div.product-item", "div.item-card", "div.card-item",
   "div.product-main", "div[class*=\"product-\"][class*=\"-card\"]",
   "div[class*=\"item-container\"]", "div[class*=\"item\"]", "div.product-view",
   "div.product-container", ".product-item-info", "div:has(img)"]

/-- Title selector cascade of the cell loop (newegg.py lines 342-350). -/
def neweggTitleSelectors : List String :=
  [".item-title", ".product-title", "a.title", "[class*=\"title\"]", "a[title]",
   "h3", "a"]

/-- Price selector cascade of the cell loop (newegg.py lines 359-366). -/
def neweggPriceSelectors : List String :=
  [".price-current", ".product-price", "[class*=\"price\"]", "li.price",
   "span.price"]

/-- Link selector cascade of the cell loop (newegg.py lines 375-381). -/
def neweggLinkSelectors : List String :=
  ["a.item-title", "a.product-title", "a[href*=\"/p/\"]", "a[title]", "a"]

/-- Condition selector of the cell loop (newegg.py line 429). -/
def neweggCondSelector : String :=
  ".item-info .item-branding:has-text(\"Refurbished\"), .item-info .item-branding:has-text(\"Open Box\")"

/-- Model of Python `s.split(sub)[1][0]`: the character right after the first
occurrence of `sub`, used by the rating parse (newegg.py line 644); a missing
character is the caught `IndexError`. -/
def firstAfterL (sub : List Char) : List Char → Option Char
  | [] => none
  | c :: rest =>
      if listIsPre sub (c :: rest) then ((c :: rest).drop sub.length).head?
      else firstAfterL sub rest

/-- Link loop of the cell body (newegg.py lines 383-387): break only when the
found element has an `href`; the loop variable keeps the last query's result
otherwise. -/
def neweggLinkLoop (cell : Elem) : List String → Option Elem
  | [] => none
  | [s] => cell.sel s
  | s :: rest =>
      match cell.sel s with
      | some e => if (e.attr "href").isSome then some e else neweggLinkLoop cell rest
      | none => neweggLinkLoop cell rest

/-- Price extraction of `_parse_search_results` (newegg.py lines 397-420):
the `\$([0-9,]+\.[0-9]{2})` search, then the split strong/sup dollars-cents
pair, then any `([0-9,]+\.[0-9]{2})` match; `none` when the price cannot be
parsed (the record is skipped) or when `float` raises (the per-cell handler
skips the record). -/
def neweggExtractPrice (price_elem : Elem) : Option ℚ :=
  let price_text := pyStrip price_elem.text
  match searchDollarP1 (strChars price_text) with
  | some g => pyFloat (ofChars (stripCommasL g))
  | none =>
      match price_elem.sel "strong", price_elem.sel "sup" with
      | some de, some ce =>
          pyFloat (stripCommasS (pyStrip de.text) ++ "." ++ pyStrip ce.text)
      | _, _ =>
          match searchAnyP1 (strChars price_text) with
          | some g => pyFloat (ofChars (stripCommasL g))
          | none => none

/-- Body of the cell loop of `NeweggScraper._parse_search_results`
(newegg.py lines 335-451): sponsored filter, the three selector cascades, the
mandatory-elements check, price extraction (unparseable price skips the
cell), link resolution against the Newegg origin, condition branding, and the
literal result dict with its `source` tag. -/
def neweggProcessCell (cell : Elem) : Option Dict :=
  if (cell.sel ".item-sponsored").isSome || (cell.sel "[class*=\"sponsor\"]").isSome then
    none
  else
    match firstSome cell neweggTitleSelectors, firstSome cell neweggPriceSelectors,
        neweggLinkLoop cell neweggLinkSelectors with
    | some te, some pe, some le =>
        let title := pyStrip te.text
        match neweggExtractPrice pe with
        | none => none
        | some price =>
            match le.attr "href" with
            | none => none
            | some l =>
                let link := if strStartsWith l "http" then l
                  else "https://www.newegg.com" ++ l
                let condition :=
                  match cell.sel neweggCondSelector with
                  | some ce =>
                      let ct := pyLower (pyStrip ce.text)
                      if containsSub ct "refurbished" then "Refurbished"
                      else if containsSub ct "open box" then "Open Box"
                      else "New"
                  | none => "New"
                some [("title", .str title), ("price", .num price),
                  ("link", .str link), ("condition", .str condition),
                  ("source", .str "newegg")]
    | _, _, _ => none

/-- Embedding of `NeweggScraper._parse_search_results` (newegg.py lines
277-454): captcha short-circuit, the `.item-cell` primary selector, the
alternative-selector loop, the last-resort currency-symbol ancestor walk
(abstracted by `lastResort`, newegg.py lines 317-332), and the cell loop. -/
def neweggParseSearchResults (soup : String → Elem) (lastResort : Elem → List Elem)
    (html : String) : List Dict :=
  if neweggCaptchaText html then []
  else
    let doc := soup html
    let cells := doc.selAll ".item-cell"
    let cells := if cells.isEmpty then firstNonempty doc neweggAltSelectors else cells
    let cells := if cells.isEmpty then lastResort doc else cells
    cells.filterMap neweggProcessCell

/-- Price entry of the Playwright `_parse_product` branch (newegg.py lines
591-605): a parsed `price`, or a raw `price_text` fallback when the regex or
`float` fails. -/
def neweggPriceFieldsOf (c : Elem) : Dict :=
  match orO (c.sel ".price-current") (c.sel "[class*='price']") with
  | none => []
  | some pe =>
      let price_text := pyStrip pe.text
      match searchP3 (strChars price_text) with
      | some g =>
          match pyFloat (ofChars (stripCommasL g)) with
          | some v => [("price", .num v)]
          | none => [("price_text", .str price_text)]
      | none => [("price_text", .str price_text)]

/-- URL entry of the Playwright `_parse_product` branch (newegg.py lines
607-615): the resolved `href`, or no entry at all. -/
def neweggUrlFieldsOf (c : Elem) : Dict :=
  match c.sel "a[href]" with
  | none => []
  | some le =>
      match le.attr "href" with
      | none => []
      | some u =>
          [("url", .str (if strStartsWith u "http" then u
            else "https://www.newegg.com" ++ u))]

/-- Image entry of the Playwright `_parse_product` branch (newegg.py lines
617-620); a missing `src` stores Python `None`. -/
def neweggImageFieldsOf (c : Elem) : Dict :=
  match c.sel "img[src]" with
  | none => []
  | some ie =>
      match ie.attr "src" with
      | some s => [("image", .str s)]
      | none => [("image", .nil)]

/-- Specs entry of the Playwright `_parse_product` branch (newegg.py lines
622-635): the feature bullets, with an empty list as default. -/
def neweggSpecsFieldsOf (c : Elem) : Dict :=
  [("specs", .strList
    (match c.sel ".item-features" with
     | none => []
     | some fe => (fe.selAll "li").map (fun li => pyStrip li.text)))]

/-- Rating entry of the Playwright `_parse_product` branch (newegg.py lines
637-647): first digit after "rating-" in the class attribute; `IndexError`
and `ValueError` are swallowed. -/
def neweggRatingFieldsOf (c : Elem) : Dict :=
  match c.sel ".item-rating i.rating" with
  | none => []
  | some re =>
      match re.attr "class" with
      | none => []
      | some cls =>
          if cls ≠ "" ∧ containsSub cls "rating-" then
            match firstAfterL (strChars "rating-") (strChars cls) with
            | some ch => if ch.isDigit then [("rating", .int (ch.toNat - 48))] else []
            | none => []
          else []

/-- Embedding of the Playwright branch of `NeweggScraper._parse_product`
(newegg.py lines 582-660 plus the shared tail 649-660).  The BeautifulSoup
branch (lines 518-581) is reachable only from tests, not from the adapter
flow, and produces the same key layout.  Title is mandatory; the entries
follow the source's insertion order, `source` is set to "Newegg", and a
missing rating defaults to 0. -/
def neweggParseProduct (c : Elem) : Option Dict :=
  let title_elem := orO (c.sel ".item-title")
    (orO (c.sel "[class*='item-name']") (c.sel "a[title]"))
  match title_elem with
  | none => none
  | some te =>
      let d := [("title", .str (pyStrip te.text))] ++ neweggPriceFieldsOf c
        ++ neweggUrlFieldsOf c ++ neweggImageFieldsOf c ++ neweggSpecsFieldsOf c
        ++ neweggRatingFieldsOf c ++ [("source", .str "Newegg")]
      let d := if (dget d "rating").isSome then d else d ++ [("rating", .int 0)]
      some d

/-- Filtered extraction loop of `NeweggScraper._extract_products_from_page`
(newegg.py lines 456-502): container cascade over `.item-cell`,
`.item-container`, `[class*='product-card']`, then `_parse_product` per
container, keeping only records with `title`, `price` and `url` keys. -/
def neweggExtractProductsFromPage (page : Elem) : List Dict :=
  let containers := page.selAll ".item-cell"
  let containers := if containers.isEmpty then page.selAll ".item-container" else containers
  let containers := if containers.isEmpty then page.selAll "[class*='product-card']" else containers
  containers.filterMap (fun c =>
    match neweggParseProduct c with
    | some d =>
        if (dget d "title").isSome && (dget d "price").isSome && (dget d "url").isSome
        then some d else none
    | none => none)

/-- Environment of the Newegg adapter: HTTP outcomes, the HTML parser, the
last-resort container scan, and the browser-automation outcomes (navigation,
captcha detection/handling, the product-grid wait and the page-title wait). -/
structure NeweggEnv where
  http : String → Except String String
  soup : String → Elem
  lastResort : Elem → List Elem
  page : String → Except String Elem
  captchaDetected : Elem → Bool
  captchaHandled : Elem → Bool
  gridWait : Elem → Except String Bool
  titleWait : Elem → Except String String

/-- Embedding of `NeweggScraper._try_regular_request` (newegg.py lines
68-107): HTTP GET inside a handler, captcha check, parse; any exception
leaves the product list empty. -/
def neweggTryRegularRequest (env : NeweggEnv) (url : String) :
    Except String (List Dict) :=
  tryCatchE
    (do
      let body ← env.http url
      if neweggCaptchaText body then pure []
      else pure (neweggParseSearchResults env.soup env.lastResort body))
    (pure [])

/-- Embedding of `NeweggScraper._search_with_browser` (newegg.py lines
113-207): navigation, captcha detection and handling, the product-grid wait
with its no-matches title fallback, and direct page extraction; every failure
path leaves the (empty) product list. -/
def neweggSearchWithBrowserE (env : NeweggEnv) (url : String) :
    Except String (List Dict) :=
  tryCatchE
    (do
      let page ← env.page url
      if env.captchaDetected page ∧ ¬env.captchaHandled page then pure []
      else
        match env.gridWait page with
        | .ok visible =>
            pure (if visible then neweggExtractProductsFromPage page else [])
        | .error _ =>
            match env.titleWait page with
            | .ok t => if containsSub (pyLower t) "no matches" then pure [] else pure []
            | .error _ => pure [])
    (pure [])

/-- Embedding of `NeweggScraper.search` (newegg.py lines 22-66): URL
construction and the regular-request attempt followed by the browser attempt
when no products were found, all inside the adapter-boundary handler that
converts any exception to an empty list. -/
def neweggSearchE (env : NeweggEnv) (keywords : String) (max_price : Option ℚ)
    (condition : Option String) (_location : Option Loc) :
    Except String (List Dict) :=
  tryCatchE
    (do
      let url := neweggSearchUrl keywords max_price condition
      let products ← neweggTryRegularRequest env url
      if products.isEmpty then neweggSearchWithBrowserE env url
      else pure products)
    (pure [])

/-! ## Facebook Marketplace adapter (`src/scrapers/sites/facebook.py`) -/

/-- Model of Python `keywords.replace(' ', '%20')`. -/
def encodeSpaces (s : String) : String :=
  (strChars s).foldr (fun c acc => (if c = ' ' then "%20" else ofChars [c]) ++ acc) ""

/-- Search URL construction of `_search_with_browser` (facebook.py lines
107-114). -/
def fbSearchUrl (keywords : String) (max_price : Option ℚ)
    (condition : Option String) : String :=
  let url := "https://www.facebook.com/marketplace/search?query=" ++ encodeSpaces keywords
  let url :=
    match max_price with
    | some p => if p ≠ 0 then url ++ "&maxPrice=" ++ pyFloatRepr p else url
    | none => url
  match condition with
  | some c =>
      if c ≠ "" then
        url ++ "&condition=" ++ (if pyLower c = "new" then "new" else "used")
      else url
  | none => url

/-- No-results indicators of `_search_with_browser` (facebook.py lines
196-200). -/
def fbNoResultsSelectors : List String :=
  ["text='No results found'", "text='We couldn't find any results'",
   "text='We didn't find any results'"]

/-- Product-link selectors of `_search_with_browser` (facebook.py lines
165-171). -/
def fbProductSelectors : List String :=
  ["a[href*='/marketplace/item/']", "a[href*='/item/']",
   "div[role='main'] a[href*='/marketplace/item/']",
   "div[role='main'] a[href*='/item/']",
   "div[style*='border-radius:'] a[href*='/marketplace/']"]

/-- Origin resolution of the product link (facebook.py lines 250 and 316). -/
def fbAbsLink (l : String) : String :=
  if strStartsWith l "http" then l else "https://www.facebook.com" ++ l

/-- Price scan of the HTML-extraction path (facebook.py lines 237-244): first
`span`/`div` text containing a dollar sign whose regex match parses; `float`
errors abort the whole link (handled at the caller). -/
def fbScanPriceTexts : List String → Option (Option ℚ)
  | [] => some none
  | t :: rest =>
      if containsSub t "$" then
        match searchP4 (strChars t) with
        | some g =>
            match pyFloat (ofChars (stripCommasL g)) with
            | some v => some (some v)
            | none => none
        | none => fbScanPriceTexts rest
      else fbScanPriceTexts rest

/-- Title-candidate filter of the HTML-extraction path (facebook.py lines
228-233): sufficiently long non-empty texts without a dollar sign. -/
def fbTitleCandidates (texts : List String) : List String :=
  texts.filter (fun t => t ≠ "" ∧ strLen t > 5 ∧ ¬containsSub t "$")

/-- Title pick of the HTML-extraction path (facebook.py line 234): first
candidate, else the generic placeholder. -/
def fbTitleOf (texts : List String) : String :=
  match (fbTitleCandidates texts).head? with
  | some t => t
  | none => "Facebook Marketplace Item"

/-- Per-link record of the HTML-extraction path (facebook.py lines 223-258):
title pick, the first parsed dollar amount as the price (defaulting to 0),
and the literal dict with its resolved `link` and `source` tag; a `float`
error skips the link. -/
def fbHtmlLinkProduct (link : Elem) : Option Dict :=
  match link.attr "href" with
  | none => none
  | some href =>
      let texts := (link.selAll "span,div").map (fun el => pyStrip el.text)
      let title := fbTitleOf texts
      match fbScanPriceTexts texts with
      | none => none
      | some priceOpt =>
          let price := priceOpt.getD 0
          some [("title", .str title), ("price", .num price),
            ("link", .str (fbAbsLink href)), ("condition", .str "Not specified"),
            ("source", .str "facebook")]

/-- Price scan of the element path (facebook.py lines 299-304): same loop
over the element's text lines, but a `float` error is absorbed by the
enclosing text-extraction handler, leaving the price at 0. -/
def fbScanPriceLines (lines : List String) : ℚ :=
  match fbScanPriceTexts lines with
  | some (some v) => v
  | _ => 0

/-- Per-element record of the element path (facebook.py lines 273-322): link
attribute (skipping the element when missing), title and price from the
element's inner-text lines, generic title fallback, and the literal dict. -/
def fbElemProduct (e : Elem) : Option Dict :=
  match e.attr "href" with
  | none => none
  | some link =>
      let lines := ((pySplitChar e.text '\n').map pyStrip).filter (fun l => l ≠ "")
      let title0 := lines.find? (fun l => ¬containsSub l "$" ∧ strLen l > 5)
      let price := fbScanPriceLines lines
      let title :=
        match title0 with
        | some t => t
        | none => "Facebook Marketplace Item"
      some [("title", .str title), ("price", .num price),
        ("link", .str (fbAbsLink link)), ("condition", .str "Not specified"),
        ("source", .str "facebook")]

/-- A browser page: its queryable DOM plus its current URL. -/
structure FbPage where
  dom : Elem
  url : String

/-- Environment of the Facebook adapter: the page state reached after the
browser launch, the marketplace and search-URL navigations and the login
calls (facebook.py lines 54-142), a thrown error standing for a failed
launch/navigation. -/
structure FbEnv where
  nav : String → Except String FbPage

/-- Embedding of `FacebookMarketplaceScraper._search_with_browser`
(facebook.py lines 47-344): after navigation, the no-results check, the
product-selector cascade, the HTML-extraction fallback over marketplace
anchor tags when no selector matched, and the element path; the outer
handler converts automation errors to the empty list. -/
def fbSearchWithBrowserE (env : FbEnv) (keywords : String) (max_price : Option ℚ)
    (condition : Option String) : Except String (List Dict) :=
  tryCatchE
    (do
      let page ← env.nav (fbSearchUrl keywords max_price condition)
      if fbNoResultsSelectors.any (fun s => (page.dom.sel s).isSome) then pure []
      else
        let elems := firstNonempty page.dom fbProductSelectors
        if elems.isEmpty then
          let anchors := (page.dom.selAll "a").filter (fun a =>
            match a.attr "href" with
            | some h => containsSub h "/marketplace/item/" || containsSub h "/item/"
            | none => false)
          if anchors.isEmpty then pure []
          else
            let products := anchors.filterMap fbHtmlLinkProduct
            if products.isEmpty then pure [] else pure products
        else pure (elems.filterMap fbElemProduct))
    (pure [])

/-- Embedding of `FacebookMarketplaceScraper.search` (facebook.py lines
25-45): the browser search inside the adapter-boundary handler. -/
def fbSearchE (env : FbEnv) (keywords : String) (max_price : Option ℚ)
    (condition : Option String) (_location : Option Loc) :
    Except String (List Dict) :=
  tryCatchE (fbSearchWithBrowserE env keywords max_price condition) (pure [])

/-- The configured Facebook credentials (`FB_CREDENTIALS` in
`utils/config.py`): a two-entry dict whose values come from the environment
and may be missing or empty. -/
structure FbCreds where
  email : Option String
  password : Option String

/-- Python falsiness of an optional string (missing or empty). -/
def optStrFalsy (o : Option String) : Bool :=
  match o with
  | none => true
  | some s => s = ""

/-- The "already authenticated" DOM indicators of `_login_if_needed`
(facebook.py lines 386-393). -/
def fbLoginIndicators : List String :=
  ["[aria-label='Your profile']", "a[href='/marketplace/']",
   "a[href*='/marketplace/']", "[role='navigation'] span:has-text('Marketplace')",
   "div[aria-label='Facebook Menu']",
   "div[role='banner'] div[aria-label='Your profile']"]

/-- Embedding of `FacebookMarketplaceScraper._login_if_needed` (facebook.py
lines 369-569).  Returns the method's result paired with whether it navigated
to the login page (line 404-406).  The method first returns `false` when the
credentials dict has a missing or empty email or password (lines 374-376);
only then does it check the authenticated-session indicators and return
`true` without navigating (lines 386-399); otherwise it navigates to the
login surface unless already there and runs the credential-submission flow
(lines 403-559), whose outcome `loginAttempt` abstracts (screenshot and
logging side effects are elided). -/
def fbLoginIfNeeded (creds : FbCreds) (page : FbPage) (loginAttempt : Bool) :
    Bool × Bool :=
  if optStrFalsy creds.email || optStrFalsy creds.password then (false, false)
  else if fbLoginIndicators.any (fun s => (page.dom.sel s).isSome) then (true, false)
  else (loginAttempt, ¬containsSub page.url "login")

/-- Condition keyword chain shared by both branches of `_extract_condition`
(facebook.py lines 587-599): the `"new"` test precedes the `"like new"`
test. -/
def fbConditionChainSel (t : String) : Option String :=
  if containsSub t "new" then some "New"
  else if containsSub t "like new" then some "Like New"
  else if containsSub t "good" then some "Good"
  else if containsSub t "fair" then some "Fair"
  else if containsSub t "poor" then some "Poor"
  else if containsSub t "used" then some "Used"
  else none

/-- Fallback keyword chain over the whole card text (facebook.py lines
603-615): again `"new"` before `"like new"`. -/
def fbConditionChainText (t : String) : Option String :=
  if containsSub t "new" then some "New"
  else if containsSub t "like new" then some "Like New"
  else if containsSub t "good condition" then some "Good"
  else if containsSub t "fair condition" then some "Fair"
  else if containsSub t "poor condition" then some "Poor"
  else if containsSub t "used" then some "Used"
  else none

/-- Condition selectors of `_extract_condition` (facebook.py lines 575-582). -/
def fbConditionSelectors : List String :=
  ["span:has-text('New')", "span:has-text('Used')", "span:has-text('Like New')",
   "span:has-text('Good')", "span:has-text('Fair')", "span:has-text('Poor')"]

/-- Selector loop of `_extract_condition` (facebook.py lines 584-599): for
each selector with a match, run the keyword chain on the matched element's
lowered text; an unmatched chain falls through to the next selector. -/
def fbCondSelLoop (card : Elem) : List String → Option String
  | [] => none
  | s :: rest =>
      match card.sel s with
      | some ce =>
          match fbConditionChainSel (pyLower (pyStrip ce.text)) with
          | some r => some r
          | none => fbCondSelLoop card rest
      | none => fbCondSelLoop card rest

/-- Embedding of `FacebookMarketplaceScraper._extract_condition` (facebook.py
lines 571-622): the selector loop, then the fallback scan of the whole card
text, then "Not specified". -/
def fbExtractCondition (card : Elem) : String :=
  match fbCondSelLoop card fbConditionSelectors with
  | some r => r
  | none =>
      match fbConditionChainText (pyLower card.text) with
      | some r => r
      | none => "Not specified"

/-! ## Helper lemmas -/

/-- Catching with an `ok` handler always yields an `ok` result. -/
theorem tryCatchE_isOk {α : Type} (x : Except String α) (d : α) :
    ∃ v, tryCatchE x (pure d) = .ok v := by
  cases x with
  | ok a => exact ⟨a, rfl⟩
  | error e => exact ⟨d, rfl⟩

/-- Binding an `ok` value applies the continuation. -/
theorem bindOkEq {α β : Type} (a : α) (f : α → Except String β) :
    (Except.ok a >>= f : Except String β) = f a := rfl

/-- Binding an `error` propagates it. -/
theorem bindErrorEq {α β : Type} (e : String) (f : α → Except String β) :
    ((Except.error e : Except String α) >>= f) = .error e := rfl

/-- Pure is `ok`. -/
theorem pureOkEq {α : Type} (a : α) : (pure a : Except String α) = .ok a := rfl

/-- Catching around an `ok` value is that value. -/
theorem tryCatchE_okEq {α : Type} (a : α) (h : Except String α) :
    tryCatchE (.ok a) h = .ok a := rfl

/-- Catching around an `error` runs the handler. -/
theorem tryCatchE_errorEq {α : Type} (e : String) (h : Except String α) :
    tryCatchE (.error e) h = h := rfl

/-- A prefix of a list is a prefix of any extension of it. -/
theorem listIsPre_append (p : List Char) :
    ∀ xs ys, listIsPre p xs = true → listIsPre p (xs ++ ys) = true := by
  induction p with
  | nil => intro xs ys _; simp [listIsPre, List.isPrefixOf]
  | cons a as ih =>
      intro xs ys h
      cases xs with
      | nil => simp [listIsPre, List.isPrefixOf] at h
      | cons b bs =>
          simp only [listIsPre, List.isPrefixOf, Bool.and_eq_true] at h ⊢
          exact ⟨h.1, ih bs ys h.2⟩

/-- Prepending keeps an `http` start. -/
theorem strStartsWith_of_append (s t : String) (h : strStartsWith s "http" = true) :
    strStartsWith (s ++ t) "http" = true := by
  unfold strStartsWith strChars at h ⊢
  rw [String.data_append]
  exact listIsPre_append _ _ _ h

/-- The resolved Facebook link always starts with `http`. -/
theorem fbAbsLink_http (l : String) : strStartsWith (fbAbsLink l) "http" = true := by
  unfold fbAbsLink
  split
  · assumption
  · exact strStartsWith_of_append "https://www.facebook.com" l (by decide)

/-- Binding an always-caught computation into an always-ok continuation is ok. -/
theorem bindOk (x : Except String (List Dict))
    (f : List Dict → Except String (List Dict))
    (hf : ∀ p, ∃ l, f p = .ok l) :
    ∃ l, (tryCatchE x (pure []) >>= f) = .ok l := by
  obtain ⟨p, hp⟩ := tryCatchE_isOk x []
  rw [hp]
  exact hf p

/-- C1: for every environment (hence every outcome of the network, parsing
and browser-automation effects) and all well-typed arguments, each adapter's
`search` returns an `ok` product list — no exception escapes the adapter
boundary. -/
theorem adapters_never_raise (eenv : ScrapeEnv) (nenv : NeweggEnv) (fenv : FbEnv)
    (keywords : String) (mp : Option ℚ) (cond : Option String) (loc : Option Loc) :
    (∃ l, ebaySearchE eenv keywords mp cond loc = .ok l) ∧
    (∃ l, neweggSearchE nenv keywords mp cond loc = .ok l) ∧
    (∃ l, fbSearchE fenv keywords mp cond loc = .ok l) := by
  refine ⟨?_, ?_, ?_⟩
  · unfold ebaySearchE
    refine bindOk _ _ ?_
    intro p
    cases hp : p.isEmpty
    · simp only [hp, Bool.false_eq_true, if_false]
      exact ⟨p, rfl⟩
    · simp only [hp, if_true]
      exact tryCatchE_isOk _ []
  · exact tryCatchE_isOk _ []
  · exact tryCatchE_isOk _ []

/-- Card with no explicit condition element whose text is the phrase
"like new". -/
def c5Card : Elem := Elem.leaf "like new" []

/-- C5: the condition-inference fallback checks `"new"` before `"like new"`
(facebook.py lines 604-607), so a card whose text contains the phrase
"like new" (and hence the word "new") is classified "New", not the
"Like New" the claim, the spec and the repository's skipped test expect —
the `"like new"` branch is unreachable. -/
theorem condition_keyword_misordered :
    containsSub (pyLower c5Card.text) "like new" = true ∧
    containsSub (pyLower c5Card.text) "new" = true ∧
    fbExtractCondition c5Card = "New" := by decide

/-- Page whose DOM shows the "already authenticated" profile indicator. -/
def c6Page : FbPage :=
  ⟨Elem.node "" []
      (fun s => if s = "[aria-label='Your profile']" then some (Elem.leaf "" []) else none)
      (fun _ => []),
    "https://www.facebook.com/marketplace/"⟩

/-- Credentials dict with both entries missing. -/
def c6NoCreds : FbCreds := ⟨none, none⟩

/-- Credentials dict with both entries present. -/
def c6GoodCreds : FbCreds := ⟨some "user@example.com", some "pw"⟩

/-- C6 counterexample: with an authenticated-session indicator present but no
configured credentials, `_login_if_needed` returns `false` — not the `true`
the claim requires "regardless of whether credentials are configured" —
because the credentials check precedes the indicator check
(facebook.py lines 374-376 before 386-399). -/
theorem login_indicator_ignored_without_creds :
    (c6Page.dom.sel "[aria-label='Your profile']").isSome = true ∧
    fbLoginIfNeeded c6NoCreds c6Page true = (false, false) := by decide

/-- C6 (amended): `_login_if_needed` first checks that credentials are
configured and returns `false` immediately (without navigating) when they are
missing or empty, even if an authenticated-session indicator is present; only
with credentials available does it check the indicators and return `true`
immediately without navigating to a login page. -/
theorem login_checks_credentials_first (creds : FbCreds) (page : FbPage)
    (attempt : Bool) :
    ((optStrFalsy creds.email || optStrFalsy creds.password) = true →
      fbLoginIfNeeded creds page attempt = (false, false)) ∧
    ((optStrFalsy creds.email || optStrFalsy creds.password) = false →
      fbLoginIndicators.any (fun s => (page.dom.sel s).isSome) = true →
      fbLoginIfNeeded creds page attempt = (true, false)) := by
  constructor
  · intro h
    unfold fbLoginIfNeeded
    simp [h]
  · intro h hind
    unfold fbLoginIfNeeded
    simp [h, hind]

/-- C6 witness: both branches of the amended statement at concrete inputs. -/
theorem login_checks_credentials_first_witness :
    fbLoginIfNeeded c6GoodCreds c6Page false = (true, false) ∧
    fbLoginIfNeeded c6NoCreds c6Page false = (false, false) :=
  ⟨(login_checks_credentials_first c6GoodCreds c6Page false).2 (by decide) (by decide),
   (login_checks_credentials_first c6NoCreds c6Page false).1 (by decide)⟩

/-- C7: an eBay search for "test keywords" with `max_price = 100.00` and
`condition = "used"` builds a request URL containing `_udhi=100.00` and an
`LH_ItemCondition` parameter, and whenever every HTTP response is an error or
parses to no listings (covering both the primary and the backup attempt),
`search` returns the empty list. -/
theorem ebay_url_scenario (env : ScrapeEnv)
    (hresp : ∀ u b, env.http u = .ok b → ebayParseSearchResults env.soup b = []) :
    containsSub (ebaySearchUrl "test keywords" (some 100) (some "used") none)
      "_udhi=100.00" = true ∧
    containsSub (ebaySearchUrl "test keywords" (some 100) (some "used") none)
      "LH_ItemCondition" = true ∧
    ebaySearchE env "test keywords" (some 100) (some "used") none = .ok [] := by
  have key : ∀ u, tryCatchE
      (do
        let body ← env.http u
        pure (ebayParseSearchResults env.soup body))
      (pure []) = .ok ([] : List Dict) := by
    intro u
    cases h : env.http u with
    | ok b =>
        have hb := hresp _ _ h
        simp only [h, bindOkEq, pureOkEq, tryCatchE_okEq, hb]
    | error e => simp only [h, bindErrorEq, tryCatchE_errorEq, pureOkEq]
  refine ⟨by decide, by decide, ?_⟩
  unfold ebaySearchE
  dsimp only
  rw [key, bindOkEq]
  simp only [List.isEmpty_nil, if_true]
  exact key _

/-- Environment whose every request raises a network error. -/
def c7Env : ScrapeEnv := ⟨fun _ => .error "network error", fun _ => Elem.leaf "" []⟩

/-- C7 witness: the scenario at the all-requests-fail environment. -/
theorem ebay_url_scenario_witness :
    containsSub (ebaySearchUrl "test keywords" (some 100) (some "used") none)
      "_udhi=100.00" = true ∧
    ebaySearchE c7Env "test keywords" (some 100) (some "used") none = .ok [] := by
  have h := ebay_url_scenario c7Env (fun u b hb => by simp [c7Env] at hb)
  exact ⟨h.1, h.2.2⟩

/-- C8: on a page that is not captcha-flagged, when the primary
listing-container selector matches zero elements, both the eBay and the
Newegg extraction routines fall through to their alternative container
selectors, and the listings found by a later selector in the cascade are
parsed and returned. -/
theorem selector_cascade_fallthrough (soup : String → Elem)
    (lastResort : Elem → List Elem) (html : String) :
    (containsSub (pyLower html) "robot" = false →
      containsSub (pyLower html) "captcha" = false →
      ((soup html).selAll "li.s-item").isEmpty = true →
      ebayParseSearchResults soup html =
        ebayProcessListings
          (orL ((soup html).selAll ".srp-results .s-item")
            (orL ((soup html).selAll ".srp-list .s-item")
              ((soup html).selAll "[data-view=\"mi:1686|iid:1\"]")))) ∧
    (neweggCaptchaText html = false →
      ((soup html).selAll ".item-cell").isEmpty = true →
      (firstNonempty (soup html) neweggAltSelectors).isEmpty = false →
      neweggParseSearchResults soup lastResort html =
        (firstNonempty (soup html) neweggAltSelectors).filterMap neweggProcessCell) := by
  constructor
  · intro h1 h2 hp
    unfold ebayParseSearchResults
    simp only [h1, h2, Bool.or_self, Bool.false_eq_true, if_false, hp, if_true]
  · intro hc hp hne
    unfold neweggParseSearchResults
    simp only [hc, Bool.false_eq_true, if_false, hp, if_true, hne]

/-- Listing visible only to eBay's second container selector. -/
def c8Listing : Elem :=
  Elem.node "A fine gadget" []
    (fun s =>
      if s = ".s-item__title" then some (Elem.leaf "Gadget Pro" [])
      else if s = ".s-item__price" then some (Elem.leaf "$10.00" [])
      else if s = "a.s-item__link" then
        some (Elem.leaf "" [("href", "https://www.ebay.com/itm/77")])
      else none)
    (fun _ => [])

/-- Product cell visible only to Newegg's first alternative selector. -/
def c8Cell : Elem :=
  Elem.node "" []
    (fun s =>
      if s = ".item-title" then some (Elem.leaf "Video Card" [])
      else if s = ".price-current" then some (Elem.leaf "$199.99" [])
      else if s = "a" then some (Elem.leaf "Video Card" [("href", "/p/N82E1")])
      else none)
    (fun _ => [])

/-- Page whose primary container selectors match nothing, while the fallback
selectors match the listings above. -/
def c8Doc : Elem :=
  Elem.node "" [] (fun _ => none)
    (fun s =>
      if s = ".srp-results .s-item" then [c8Listing]
      else if s = "div.product-card" then [c8Cell]
      else [])

/-- Parser oracle for the cascade witness. -/
def c8Soup : String → Elem := fun _ => c8Doc

/-- Empty last-resort scan for the cascade witness. -/
def c8LastResort : Elem → List Elem := fun _ => []

/-- C8 witness: the fallthrough equalities at the concrete page. -/
theorem selector_cascade_fallthrough_witness :
    ebayParseSearchResults c8Soup "results page" =
      ebayProcessListings
        (orL ((c8Soup "results page").selAll ".srp-results .s-item")
          (orL ((c8Soup "results page").selAll ".srp-list .s-item")
            ((c8Soup "results page").selAll "[data-view=\"mi:1686|iid:1\"]"))) ∧
    neweggParseSearchResults c8Soup c8LastResort "results page" =
      (firstNonempty (c8Soup "results page") neweggAltSelectors).filterMap
        neweggProcessCell := by
  have h := selector_cascade_fallthrough c8Soup c8LastResort "results page"
  exact ⟨h.1 (by decide) (by decide) (by decide),
    h.2 (by decide) (by decide) (by decide)⟩

/-- Lookup in the empty dict. -/
theorem dget_nil (k : String) : dget [] k = none := rfl

/-- Lookup steps through one entry. -/
theorem dget_cons (key : String) (v : PVal) (t : Dict) (k : String) :
    dget ((key, v) :: t) k = if key = k then some v else dget t k := by
  unfold dget
  by_cases h : key = k
  · rw [List.find?_cons_of_pos _ (by simp [h])]
    simp [h]
  · rw [List.find?_cons_of_neg _ (by simp [h])]
    simp [h]

/-- A hit in the front segment wins. -/
theorem dget_append_some (d₁ d₂ : Dict) (k : String) (v : PVal)
    (h : dget d₁ k = some v) : dget (d₁ ++ d₂) k = some v := by
  induction d₁ with
  | nil => simp [dget_nil] at h
  | cons a t ih =>
      obtain ⟨key, w⟩ := a
      by_cases hk : key = k
      · rw [dget_cons] at h
        simp only [hk, if_true] at h
        simp only [List.cons_append, dget_cons, hk, if_true]
        exact h
      · rw [dget_cons] at h
        simp only [hk, if_false] at h
        simp only [List.cons_append, dget_cons, hk, if_false]
        exact ih h

/-- A miss in the front segment defers to the back. -/
theorem dget_append_none (d₁ d₂ : Dict) (k : String)
    (h : dget d₁ k = none) : dget (d₁ ++ d₂) k = dget d₂ k := by
  induction d₁ with
  | nil => simp
  | cons a t ih =>
      obtain ⟨key, w⟩ := a
      by_cases hk : key = k
      · rw [dget_cons] at h
        simp [hk] at h
      · rw [dget_cons] at h
        simp only [hk, if_false] at h
        simp only [List.cons_append, dget_cons, hk, if_false]
        exact ih h

/-- A dict whose keys all differ from `k` has no `k` entry. -/
theorem dget_eq_none (d : Dict) (k : String) (h : ∀ x ∈ d, x.1 ≠ k) :
    dget d k = none := by
  induction d with
  | nil => rfl
  | cons a t ih =>
      obtain ⟨key, w⟩ := a
      rw [dget_cons]
      simp only [if_neg (h (key, w) (by simp))]
      exact ih (fun x hx => h x (by simp [hx]))

/-- An if-resolved relative link starts with `http` once the origin does. -/
theorem resolved_http (origin l : String) (ho : strStartsWith origin "http" = true) :
    strStartsWith (if strStartsWith l "http" then l else origin ++ l) "http" = true := by
  split
  · assumption
  · exact strStartsWith_of_append origin l ho

/-- A string longer than five characters is non-empty. -/
theorem ne_empty_of_strLen_gt (t : String) (h : 5 < strLen t) : t ≠ "" := by
  intro he
  subst he
  simp [strLen, strChars] at h

/-- Every record the Facebook element path emits: its exact key layout, a
non-empty title, and the resolved link. -/
theorem fbElemProduct_shape (e : Elem) (d : Dict) (h : fbElemProduct e = some d) :
    ∃ t l p, d = [("title", .str t), ("price", .num p),
      ("link", .str (fbAbsLink l)), ("condition", .str "Not specified"),
      ("source", .str "facebook")] ∧ t ≠ "" := by
  unfold fbElemProduct at h
  split at h
  · exact absurd h (by simp)
  · dsimp only at h
    split at h
    case _ t ht =>
      cases h
      refine ⟨t, _, _, rfl, ?_⟩
      have hp := List.find?_some ht
      simp only [decide_eq_true_eq] at hp
      exact ne_empty_of_strLen_gt t hp.2
    case _ ht =>
      cases h
      exact ⟨"Facebook Marketplace Item", _, _, rfl, by simp⟩

/-- Head of a filtered list satisfies the filter. -/
theorem head_filter_prop {α : Type} (p : α → Bool) (l : List α) (a : α)
    (h : (l.filter p).head? = some a) : p a = true := by
  cases hl : l.filter p with
  | nil => rw [hl] at h; simp at h
  | cons x xs =>
      rw [hl] at h
      simp only [List.head?_cons, Option.some.injEq] at h
      have hx : x ∈ l.filter p := by
        rw [hl]; exact List.mem_cons_self x xs
      have hpx := (List.mem_filter.mp hx).2
      rwa [h] at hpx

/-- The HTML-path title pick is never empty. -/
theorem fbTitleOf_ne (texts : List String) : fbTitleOf texts ≠ "" := by
  unfold fbTitleOf
  cases hc : (fbTitleCandidates texts).head? with
  | none => simp
  | some c =>
      have hp := head_filter_prop _ _ _ (by unfold fbTitleCandidates at hc; exact hc)
      simp only [decide_eq_true_eq] at hp
      simpa using hp.1

/-- Every record the Facebook HTML-extraction path emits: its exact key
layout, a non-empty title, and the resolved link. -/
theorem fbHtmlLinkProduct_shape (e : Elem) (d : Dict)
    (h : fbHtmlLinkProduct e = some d) :
    ∃ t l p, d = [("title", .str t), ("price", .num p),
      ("link", .str (fbAbsLink l)), ("condition", .str "Not specified"),
      ("source", .str "facebook")] ∧ t ≠ "" := by
  unfold fbHtmlLinkProduct at h
  split at h
  · exact absurd h (by simp)
  · dsimp only at h
    split at h
    · exact absurd h (by simp)
    · cases h
      exact ⟨_, _, _, rfl, fbTitleOf_ne _⟩

/-- Every record the Newegg HTTP cell loop emits: its exact key layout with
an absolute link and the `newegg` source tag. -/
theorem neweggProcessCell_shape (cell : Elem) (d : Dict)
    (h : neweggProcessCell cell = some d) :
    ∃ t p l cond, d = [("title", .str t), ("price", .num p), ("link", .str l),
      ("condition", .str cond), ("source", .str "newegg")] ∧
      strStartsWith l "http" = true := by
  unfold neweggProcessCell at h
  split at h
  · exact absurd h (by simp)
  · split at h
    case _ te pe le =>
      dsimp only at h
      split at h
      · exact absurd h (by simp)
      · split at h
        · exact absurd h (by simp)
        · cases h
          exact ⟨_, _, _, _, rfl, resolved_http _ _ (by decide)⟩
    case _ => exact absurd h (by simp)

/-- Every record the eBay listing parser emits: its exact key layout, a
non-empty title, the raw price text, and the raw link href. -/
theorem ebayParseProduct_shape (e : Elem) (d : Dict)
    (h : ebayParseProduct e = some d) :
    ∃ t p u cond ship img, d = [("title", .str t), ("price", .str p),
      ("url", .str u), ("condition", .str cond), ("shipping", .str ship),
      ("image", img)] ∧ t ≠ "" := by
  unfold ebayParseProduct at h
  dsimp only at h
  split at h
  · split at h
    · exact absurd h (by simp)
    · rename_i hplace
      split at h
      · exact absurd h (by simp)
      · cases h
        refine ⟨_, _, _, _, _, _, rfl, fun hemp => hplace (Or.inr hemp)⟩
  · exact absurd h (by simp)

/-- Keys the price segment can carry. -/
theorem neweggPriceFieldsOf_keys (c : Elem) :
    ∀ x ∈ neweggPriceFieldsOf c, x.1 = "price" ∨ x.1 = "price_text" := by
  unfold neweggPriceFieldsOf
  split
  · simp
  · dsimp only
    split
    · split <;> simp
    · simp

/-- Shape of the URL segment: absent, or a single absolute `url` entry. -/
theorem neweggUrlFieldsOf_shape (c : Elem) :
    neweggUrlFieldsOf c = [] ∨
      ∃ u, neweggUrlFieldsOf c = [("url", PVal.str u)] ∧
        strStartsWith u "http" = true := by
  unfold neweggUrlFieldsOf
  split
  · exact Or.inl rfl
  · split
    · exact Or.inl rfl
    · exact Or.inr ⟨_, rfl, resolved_http _ _ (by decide)⟩

/-- Keys the image segment can carry. -/
theorem neweggImageFieldsOf_keys (c : Elem) :
    ∀ x ∈ neweggImageFieldsOf c, x.1 = "image" := by
  unfold neweggImageFieldsOf
  split
  · simp
  · split <;> simp

/-- Keys the specs segment carries. -/
theorem neweggSpecsFieldsOf_keys (c : Elem) :
    ∀ x ∈ neweggSpecsFieldsOf c, x.1 = "specs" := by
  unfold neweggSpecsFieldsOf
  simp

/-- Keys the rating segment can carry. -/
theorem neweggRatingFieldsOf_keys (c : Elem) :
    ∀ x ∈ neweggRatingFieldsOf c, x.1 = "rating" := by
  unfold neweggRatingFieldsOf
  split
  · simp
  · split
    · simp
    · split
      · split
        · split <;> simp
        · simp
      · simp

/-- Key facts of the Playwright `_parse_product` dict layout: `source` is the
"Newegg" tag, there is no `link` entry, and a `url` entry, when present, is
absolute. -/
theorem neweggLayoutKeys (tv : PVal) (pF uF iF sF rF : Dict)
    (hp : ∀ x ∈ pF, x.1 = "price" ∨ x.1 = "price_text")
    (hu : uF = [] ∨ ∃ u, uF = [("url", PVal.str u)] ∧ strStartsWith u "http" = true)
    (hi : ∀ x ∈ iF, x.1 = "image")
    (hs : ∀ x ∈ sF, x.1 = "specs")
    (hr : ∀ x ∈ rF, x.1 = "rating") (d : Dict)
    (hd : d =
      (let d0 := [("title", tv)] ++ pF ++ uF ++ iF ++ sF ++ rF
        ++ [("source", PVal.str "Newegg")]
      if (dget d0 "rating").isSome then d0 else d0 ++ [("rating", PVal.int 0)])) :
    dget d "source" = some (.str "Newegg") ∧ dget d "link" = none ∧
    (dget d "url" = none ∨
      ∃ u, dget d "url" = some (.str u) ∧ strStartsWith u "http" = true) := by
  subst hd
  dsimp only
  have segNone : ∀ (k : String) (seg : Dict), (∀ x ∈ seg, x.1 ≠ k) →
      ∀ (l : Dict), dget l k = none → dget (l ++ seg) k = none := by
    intro k seg hseg l hl
    rw [dget_append_none _ _ _ hl]
    exact dget_eq_none _ _ hseg
  have hpk : ∀ (k : String), k ≠ "price" → k ≠ "price_text" →
      ∀ x ∈ pF, x.1 ≠ k := by
    intro k h1 h2 x hx
    rcases hp x hx with h | h <;> rw [h] <;> intro hc <;> [exact h1 hc.symm; exact h2 hc.symm]
  -- source chain
  have s1 : dget [("title", tv)] "source" = none := by simp [dget_cons, dget_nil]
  have s2 := segNone "source" pF (hpk _ (by decide) (by decide)) _ s1
  have s3 : dget ([("title", tv)] ++ pF ++ uF) "source" = none := by
    rcases hu with h | ⟨u, h, _⟩ <;> rw [h]
    · simpa using s2
    · exact segNone "source" _ (by simp) _ s2
  have s4 := segNone "source" iF (fun x hx => by rw [hi x hx]; decide) _ s3
  have s5 := segNone "source" sF (fun x hx => by rw [hs x hx]; decide) _ s4
  have s6 := segNone "source" rF (fun x hx => by rw [hr x hx]; decide) _ s5
  have sFin : dget ([("title", tv)] ++ pF ++ uF ++ iF ++ sF ++ rF
      ++ [("source", PVal.str "Newegg")]) "source" = some (.str "Newegg") := by
    rw [dget_append_none _ _ _ s6]
    simp [dget_cons]
  -- link chain
  have l1 : dget [("title", tv)] "link" = none := by simp [dget_cons, dget_nil]
  have l2 := segNone "link" pF (hpk _ (by decide) (by decide)) _ l1
  have l3 : dget ([("title", tv)] ++ pF ++ uF) "link" = none := by
    rcases hu with h | ⟨u, h, _⟩ <;> rw [h]
    · simpa using l2
    · exact segNone "link" _ (by simp) _ l2
  have l4 := segNone "link" iF (fun x hx => by rw [hi x hx]; decide) _ l3
  have l5 := segNone "link" sF (fun x hx => by rw [hs x hx]; decide) _ l4
  have l6 := segNone "link" rF (fun x hx => by rw [hr x hx]; decide) _ l5
  have lFin : dget ([("title", tv)] ++ pF ++ uF ++ iF ++ sF ++ rF
      ++ [("source", PVal.str "Newegg")]) "link" = none := by
    rw [dget_append_none _ _ _ l6]
    simp [dget_cons, dget_nil]
  -- url chain
  have u1 : dget [("title", tv)] "url" = none := by simp [dget_cons, dget_nil]
  have u2 := segNone "url" pF (hpk _ (by decide) (by decide)) _ u1
  have uFin : dget ([("title", tv)] ++ pF ++ uF ++ iF ++ sF ++ rF
      ++ [("source", PVal.str "Newegg")]) "url" = none ∨
      ∃ u, dget ([("title", tv)] ++ pF ++ uF ++ iF ++ sF ++ rF
        ++ [("source", PVal.str "Newegg")]) "url" = some (.str u) ∧
        strStartsWith u "http" = true := by
    rcases hu with h | ⟨u, h, hhttp⟩
    · left
      have u3 : dget ([("title", tv)] ++ pF ++ uF) "url" = none := by
        rw [h]; simpa using u2
      have u4 := segNone "url" iF (fun x hx => by rw [hi x hx]; decide) _ u3
      have u5 := segNone "url" sF (fun x hx => by rw [hs x hx]; decide) _ u4
      have u6 := segNone "url" rF (fun x hx => by rw [hr x hx]; decide) _ u5
      rw [dget_append_none _ _ _ u6]
      simp [dget_cons, dget_nil]
    · right
      refine ⟨u, ?_, hhttp⟩
      have u3 : dget ([("title", tv)] ++ pF ++ uF) "url" = some (.str u) := by
        rw [h, dget_append_none _ _ _ u2]
        simp [dget_cons]
      exact dget_append_some _ _ _ _ (dget_append_some _ _ _ _
        (dget_append_some _ _ _ _ (dget_append_some _ _ _ _ u3)))
  -- assemble through the rating default
  split
  · exact ⟨sFin, lFin, uFin⟩
  · refine ⟨dget_append_some _ _ _ _ sFin, ?_, ?_⟩
    · rw [dget_append_none _ _ _ lFin]
      simp [dget_cons, dget_nil]
    · rcases uFin with h | ⟨u, h, hhttp⟩
      · left
        rw [dget_append_none _ _ _ h]
        simp [dget_cons, dget_nil]
      · exact Or.inr ⟨u, dget_append_some _ _ _ _ h, hhttp⟩

/-- Key facts of every record `_parse_product` emits. -/
theorem neweggParseProduct_keys (c : Elem) (d : Dict)
    (h : neweggParseProduct c = some d) :
    dget d "source" = some (.str "Newegg") ∧ dget d "link" = none ∧
    (dget d "url" = none ∨
      ∃ u, dget d "url" = some (.str u) ∧ strStartsWith u "http" = true) := by
  unfold neweggParseProduct at h
  dsimp only at h
  split at h
  · exact absurd h (by simp)
  · injection h with h
    exact neweggLayoutKeys _ _ _ _ _ _ (neweggPriceFieldsOf_keys c)
      (neweggUrlFieldsOf_shape c) (neweggImageFieldsOf_keys c)
      (neweggSpecsFieldsOf_keys c) (neweggRatingFieldsOf_keys c) d h.symm

/-- Facebook product element for concrete evaluations. -/
def sampleFbElem : Elem :=
  Elem.leaf "Nice blue bicycle\n$25.00" [("href", "/marketplace/item/1")]

/-- Facebook marketplace anchor (HTML path) for concrete evaluations. -/
def sampleFbAnchor : Elem :=
  Elem.node "" [("href", "https://www.facebook.com/marketplace/item/2")]
    (fun _ => none)
    (fun s =>
      if s = "span,div" then [Elem.leaf "Lovely red wagon" [], Elem.leaf "$10.00" []]
      else [])

/-- Newegg HTTP-path product cell for concrete evaluations. -/
def sampleCell : Elem :=
  Elem.node "" []
    (fun s =>
      if s = ".item-title" then some (Elem.leaf "Nvidia GPU" [])
      else if s = ".price-current" then some (Elem.leaf "$99.99" [])
      else if s = "a.item-title" then
        some (Elem.leaf "Nvidia GPU" [("href", "https://www.newegg.com/p/1")])
      else none)
    (fun _ => [])

/-- eBay listing element for concrete evaluations. -/
def sampleEbayListing : Elem :=
  Elem.node "Mechanical keyboard" []
    (fun s =>
      if s = ".s-item__title" then some (Elem.leaf "Mechanical keyboard" [])
      else if s = ".s-item__price" then some (Elem.leaf "$20.00" [])
      else if s = "a.s-item__link" then
        some (Elem.leaf "" [("href", "https://www.ebay.com/itm/5")])
      else none)
    (fun _ => [])

/-- Newegg browser-path product container for concrete evaluations. -/
def sampleNeContainer : Elem :=
  Elem.node "" []
    (fun s => if s = ".item-title" then some (Elem.leaf "SSD Drive" []) else none)
    (fun _ => [])

/-- C10: the social-marketplace browser search and the retail HTTP parse path
store the product URL under the key `link` (with no `url` key), while the
auction adapter's `_parse_product` and the retail adapter's `_parse_product`
store it under `url` (with no `link` key). -/
theorem url_key_split (e1 e2 c1 e4 c2 : Elem) (d1 d2 d3 d4 d5 : Dict) :
    (fbElemProduct e1 = some d1 →
      (dget d1 "link").isSome = true ∧ dget d1 "url" = none) ∧
    (fbHtmlLinkProduct e2 = some d2 →
      (dget d2 "link").isSome = true ∧ dget d2 "url" = none) ∧
    (neweggProcessCell c1 = some d3 →
      (dget d3 "link").isSome = true ∧ dget d3 "url" = none) ∧
    (ebayParseProduct e4 = some d4 →
      (dget d4 "url").isSome = true ∧ dget d4 "link" = none) ∧
    (neweggParseProduct c2 = some d5 → dget d5 "link" = none) := by
  refine ⟨?_, ?_, ?_, ?_, ?_⟩
  · intro h
    obtain ⟨t, l, p, rfl, -⟩ := fbElemProduct_shape _ _ h
    constructor <;> simp [dget_cons, dget_nil]
  · intro h
    obtain ⟨t, l, p, rfl, -⟩ := fbHtmlLinkProduct_shape _ _ h
    constructor <;> simp [dget_cons, dget_nil]
  · intro h
    obtain ⟨t, p, l, cond, rfl, -⟩ := neweggProcessCell_shape _ _ h
    constructor <;> simp [dget_cons, dget_nil]
  · intro h
    obtain ⟨t, p, u, cond, ship, img, rfl, -⟩ := ebayParseProduct_shape _ _ h
    constructor <;> simp [dget_cons, dget_nil]
  · intro h
    exact (neweggParseProduct_keys _ _ h).2.1

/-- C10 witness: the key layout at the five concrete elements. -/
theorem url_key_split_witness :
    ((dget [("title", PVal.str "Nice blue bicycle"),
        ("price", PVal.num (Rat.divInt 2500 100)),
        ("link", PVal.str "https://www.facebook.com/marketplace/item/1"),
        ("condition", PVal.str "Not specified"),
        ("source", PVal.str "facebook")] "link").isSome = true ∧
      dget [("title", PVal.str "Nice blue bicycle"),
        ("price", PVal.num (Rat.divInt 2500 100)),
        ("link", PVal.str "https://www.facebook.com/marketplace/item/1"),
        ("condition", PVal.str "Not specified"),
        ("source", PVal.str "facebook")] "url" = none) ∧
    dget [("title", PVal.str "SSD Drive"), ("specs", PVal.strList []),
      ("source", PVal.str "Newegg"), ("rating", PVal.int 0)] "link" = none := by
  refine ⟨(url_key_split sampleFbElem sampleFbAnchor sampleCell
    sampleEbayListing sampleNeContainer
    [("title", PVal.str "Nice blue bicycle"),
      ("price", PVal.num (Rat.divInt 2500 100)),
      ("link", PVal.str "https://www.facebook.com/marketplace/item/1"),
      ("condition", PVal.str "Not specified"),
      ("source", PVal.str "facebook")] [] [] [] []).1 (by decide), ?_⟩
  exact (url_key_split sampleFbElem sampleFbAnchor sampleCell
    sampleEbayListing sampleNeContainer [] [] [] []
    [("title", PVal.str "SSD Drive"), ("specs", PVal.strList []),
      ("source", PVal.str "Newegg"), ("rating", PVal.int 0)]).2.2.2.2 (by decide)

/-- eBay listing whose link href is relative. -/
def c2Listing : Elem :=
  Elem.node "" []
    (fun s =>
      if s = ".s-item__title" then some (Elem.leaf "Vintage camera" [])
      else if s = ".s-item__price" then some (Elem.leaf "$30.00" [])
      else if s = "a.s-item__link" then some (Elem.leaf "" [("href", "/itm/123")])
      else none)
    (fun _ => [])

/-- C2 counterexample: the auction adapter emits the link href verbatim, so a
relative `/itm/123` is stored under `url` unresolved, contradicting the claim
that every accepted record's URL starts with `http` (ebay.py line 218 has no
origin resolution). -/
theorem ebay_relative_url_emitted :
    ebayParseProduct c2Listing = some
      [("title", PVal.str "Vintage camera"), ("price", PVal.str "$30.00"),
        ("url", PVal.str "/itm/123"), ("condition", PVal.str "Not specified"),
        ("shipping", PVal.str "Not specified"), ("image", PVal.nil)] ∧
    strStartsWith "/itm/123" "http" = false := by decide

/-- C2 (amended): every accepted record has a non-empty title in the auction
and social adapters; the social and retail adapters store URLs that start
with `http` (after origin resolution); the auction adapter stores the raw
href, which need not start with `http`; the retail HTTP-path title is the
element's stripped text, possibly empty. -/
theorem accepted_title_and_url (e1 e2 e3 c1 c2 : Elem) (d1 d2 d3 d4 d5 : Dict) :
    (ebayParseProduct e1 = some d1 →
      ∃ t u, dget d1 "title" = some (.str t) ∧ t ≠ "" ∧
        dget d1 "url" = some (.str u)) ∧
    (fbElemProduct e2 = some d2 →
      ∃ t l, dget d2 "title" = some (.str t) ∧ t ≠ "" ∧
        dget d2 "link" = some (.str l) ∧ strStartsWith l "http" = true) ∧
    (fbHtmlLinkProduct e3 = some d3 →
      ∃ t l, dget d3 "title" = some (.str t) ∧ t ≠ "" ∧
        dget d3 "link" = some (.str l) ∧ strStartsWith l "http" = true) ∧
    (neweggProcessCell c1 = some d4 →
      ∃ l, dget d4 "link" = some (.str l) ∧ strStartsWith l "http" = true) ∧
    (neweggParseProduct c2 = some d5 →
      dget d5 "url" = none ∨
        ∃ u, dget d5 "url" = some (.str u) ∧ strStartsWith u "http" = true) := by
  refine ⟨?_, ?_, ?_, ?_, ?_⟩
  · intro h
    obtain ⟨t, p, u, cond, ship, img, rfl, ht⟩ := ebayParseProduct_shape _ _ h
    exact ⟨t, u, by simp [dget_cons], ht, by simp [dget_cons]⟩
  · intro h
    obtain ⟨t, l, p, rfl, ht⟩ := fbElemProduct_shape _ _ h
    exact ⟨t, fbAbsLink l, by simp [dget_cons], ht, by simp [dget_cons],
      fbAbsLink_http l⟩
  · intro h
    obtain ⟨t, l, p, rfl, ht⟩ := fbHtmlLinkProduct_shape _ _ h
    exact ⟨t, fbAbsLink l, by simp [dget_cons], ht, by simp [dget_cons],
      fbAbsLink_http l⟩
  · intro h
    obtain ⟨t, p, l, cond, rfl, hl⟩ := neweggProcessCell_shape _ _ h
    exact ⟨l, by simp [dget_cons], hl⟩
  · intro h
    exact (neweggParseProduct_keys _ _ h).2.2

/-- C2 witness: the amended guarantees at concrete accepted records. -/
theorem accepted_title_and_url_witness :
    (∃ t u, dget [("title", PVal.str "Mechanical keyboard"),
        ("price", PVal.str "$20.00"), ("url", PVal.str "https://www.ebay.com/itm/5"),
        ("condition", PVal.str "Not specified"),
        ("shipping", PVal.str "Not specified"), ("image", PVal.nil)] "title"
          = some (.str t) ∧ t ≠ "" ∧
      dget [("title", PVal.str "Mechanical keyboard"),
        ("price", PVal.str "$20.00"), ("url", PVal.str "https://www.ebay.com/itm/5"),
        ("condition", PVal.str "Not specified"),
        ("shipping", PVal.str "Not specified"), ("image", PVal.nil)] "url"
          = some (.str u)) ∧
    (∃ l, dget [("title", PVal.str "Nvidia GPU"),
        ("price", PVal.num (Rat.divInt 9999 100)),
        ("link", PVal.str "https://www.newegg.com/p/1"),
        ("condition", PVal.str "New"), ("source", PVal.str "newegg")] "link"
          = some (.str l) ∧ strStartsWith l "http" = true) := by
  have h := accepted_title_and_url sampleEbayListing sampleFbElem sampleFbAnchor
    sampleCell sampleNeContainer
    [("title", PVal.str "Mechanical keyboard"), ("price", PVal.str "$20.00"),
      ("url", PVal.str "https://www.ebay.com/itm/5"),
      ("condition", PVal.str "Not specified"),
      ("shipping", PVal.str "Not specified"), ("image", PVal.nil)]
    [] []
    [("title", PVal.str "Nvidia GPU"), ("price", PVal.num (Rat.divInt 9999 100)),
      ("link", PVal.str "https://www.newegg.com/p/1"),
      ("condition", PVal.str "New"), ("source", PVal.str "newegg")]
    []
  exact ⟨h.1 (by decide), h.2.2.2.1 (by decide)⟩

/-- eBay listing for the missing-source counterexample. -/
def c3Listing : Elem :=
  Elem.node "" []
    (fun s =>
      if s = ".s-item__title" then some (Elem.leaf "Wireless mouse" [])
      else if s = ".s-item__price" then some (Elem.leaf "$15.00" [])
      else if s = "a.s-item__link" then
        some (Elem.leaf "" [("href", "https://www.ebay.com/itm/9")])
      else none)
    (fun _ => [])

/-- Environment whose one page holds the listing above. -/
def c3Env : ScrapeEnv :=
  ⟨fun _ => .ok "listing page",
   fun _ => Elem.node "" [] (fun _ => none)
     (fun s => if s = "li.s-item" then [c3Listing] else [])⟩

/-- C3 counterexample: a full eBay search returns a record with no `source`
entry at all — the auction adapter's result dict (ebay.py lines 224-231) has
no `source` key, contradicting the claim that every returned record carries
one. -/
theorem ebay_record_lacks_source :
    ebaySearchE c3Env "mouse" none none none = .ok
      [[("title", PVal.str "Wireless mouse"), ("price", PVal.str "$15.00"),
        ("url", PVal.str "https://www.ebay.com/itm/9"),
        ("condition", PVal.str "Not specified"),
        ("shipping", PVal.str "Not specified"), ("image", PVal.nil)]] ∧
    dget [("title", PVal.str "Wireless mouse"), ("price", PVal.str "$15.00"),
      ("url", PVal.str "https://www.ebay.com/itm/9"),
      ("condition", PVal.str "Not specified"),
      ("shipping", PVal.str "Not specified"), ("image", PVal.nil)] "source"
      = none := ⟨by rfl, by decide⟩

/-- C3 (amended): the social and retail adapters set `source` on every
emitted record ("facebook", "newegg"/"Newegg"); the auction adapter's records
carry no `source` field at all. -/
theorem source_field_tagging (e1 e2 e3 c1 c2 : Elem) (d1 d2 d3 d4 d5 : Dict) :
    (fbElemProduct e1 = some d1 → dget d1 "source" = some (.str "facebook")) ∧
    (fbHtmlLinkProduct e2 = some d2 → dget d2 "source" = some (.str "facebook")) ∧
    (neweggProcessCell c1 = some d3 → dget d3 "source" = some (.str "newegg")) ∧
    (neweggParseProduct c2 = some d4 → dget d4 "source" = some (.str "Newegg")) ∧
    (ebayParseProduct e3 = some d5 → dget d5 "source" = none) := by
  refine ⟨?_, ?_, ?_, ?_, ?_⟩
  · intro h
    obtain ⟨t, l, p, rfl, -⟩ := fbElemProduct_shape _ _ h
    simp [dget_cons]
  · intro h
    obtain ⟨t, l, p, rfl, -⟩ := fbHtmlLinkProduct_shape _ _ h
    simp [dget_cons]
  · intro h
    obtain ⟨t, p, l, cond, rfl, -⟩ := neweggProcessCell_shape _ _ h
    simp [dget_cons]
  · intro h
    exact (neweggParseProduct_keys _ _ h).1
  · intro h
    obtain ⟨t, p, u, cond, ship, img, rfl, -⟩ := ebayParseProduct_shape _ _ h
    simp [dget_cons, dget_nil]

/-- C3 witness: the amended tagging at concrete records. -/
theorem source_field_tagging_witness :
    dget [("title", PVal.str "Nice blue bicycle"),
      ("price", PVal.num (Rat.divInt 2500 100)),
      ("link", PVal.str "https://www.facebook.com/marketplace/item/1"),
      ("condition", PVal.str "Not specified"),
      ("source", PVal.str "facebook")] "source" = some (.str "facebook") ∧
    dget [("title", PVal.str "Mechanical keyboard"), ("price", PVal.str "$20.00"),
      ("url", PVal.str "https://www.ebay.com/itm/5"),
      ("condition", PVal.str "Not specified"),
      ("shipping", PVal.str "Not specified"), ("image", PVal.nil)] "source"
      = none := by
  have h := source_field_tagging sampleFbElem sampleFbAnchor sampleEbayListing
    sampleCell sampleNeContainer
    [("title", PVal.str "Nice blue bicycle"),
      ("price", PVal.num (Rat.divInt 2500 100)),
      ("link", PVal.str "https://www.facebook.com/marketplace/item/1"),
      ("condition", PVal.str "Not specified"),
      ("source", PVal.str "facebook")]
    [] [] []
    [("title", PVal.str "Mechanical keyboard"), ("price", PVal.str "$20.00"),
      ("url", PVal.str "https://www.ebay.com/itm/5"),
      ("condition", PVal.str "Not specified"),
      ("shipping", PVal.str "Not specified"), ("image", PVal.nil)]
  exact ⟨h.1 (by decide), h.2.2.2.2 (by decide)⟩

/-- eBay listing whose price element has no parseable price. -/
def c4Listing : Elem :=
  Elem.node "" []
    (fun s =>
      if s = ".s-item__title" then some (Elem.leaf "Gaming laptop" [])
      else if s = ".s-item__price" then some (Elem.leaf "Tap to see price" [])
      else if s = "a.s-item__link" then
        some (Elem.leaf "" [("href", "https://www.ebay.com/itm/3")])
      else none)
    (fun _ => [])

/-- C4 counterexample: the auction parser keeps the raw price text and emits
the record even when no price can be parsed from it — the container is
dropped only when the price element is missing entirely (ebay.py line 217),
contradicting both the drop-on-unparseable-price and the
price-is-a-normalized-number parts of the claim. -/
theorem ebay_unparseable_price_kept :
    searchDollarP1 (strChars "Tap to see price") = none ∧
    searchAnyP1 (strChars "Tap to see price") = none ∧
    ebayParseProduct c4Listing = some
      [("title", PVal.str "Gaming laptop"), ("price", PVal.str "Tap to see price"),
        ("url", PVal.str "https://www.ebay.com/itm/3"),
        ("condition", PVal.str "Not specified"),
        ("shipping", PVal.str "Not specified"), ("image", PVal.nil)] := by decide

/-- C4 (amended): the retail HTTP parser drops a cell whose price element
yields no parseable price and normalizes every emitted price to a number,
while the auction parser requires only that a price element exists and emits
its raw text unnormalized. -/
theorem price_mandatory_policy (cell pe e : Elem) (d1 d2 : Dict) :
    (firstSome cell neweggPriceSelectors = some pe →
      neweggExtractPrice pe = none → neweggProcessCell cell = none) ∧
    (neweggProcessCell cell = some d1 → ∃ q, dget d1 "price" = some (.num q)) ∧
    (ebayParseProduct e = some d2 → ∃ s, dget d2 "price" = some (.str s)) := by
  refine ⟨?_, ?_, ?_⟩
  · intro hpe hnone
    unfold neweggProcessCell
    split
    · rfl
    · split
      · rename_i te2 pe2 le2 heqT heqP heqL
        dsimp only
        have hpe2 : pe2 = pe := by
          rw [hpe] at heqP
          exact (Option.some.inj heqP).symm
        subst hpe2
        simp [hnone]
      · rfl
  · intro h
    obtain ⟨t, p, l, cond, rfl, -⟩ := neweggProcessCell_shape _ _ h
    exact ⟨p, by simp [dget_cons]⟩
  · intro h
    obtain ⟨t, p, u, cond, ship, img, rfl, -⟩ := ebayParseProduct_shape _ _ h
    exact ⟨p, by simp [dget_cons]⟩

/-- Newegg price element with no parseable price. -/
def c4BadPriceElem : Elem := Elem.leaf "Contact seller for price" []

/-- Newegg cell carrying the unparseable price element above. -/
def c4BadCell : Elem :=
  Elem.node "" []
    (fun s =>
      if s = ".item-title" then some (Elem.leaf "Mystery Box" [])
      else if s = ".price-current" then some c4BadPriceElem
      else if s = "a" then
        some (Elem.leaf "" [("href", "https://www.newegg.com/p/2")])
      else none)
    (fun _ => [])

/-- C4 witness: the concrete no-parseable-price cell yields zero records. -/
theorem price_mandatory_policy_witness :
    neweggProcessCell c4BadCell = none :=
  (price_mandatory_policy c4BadCell c4BadPriceElem c4BadCell [] []).1
    (by rfl) (by decide)

/-- Digit characters are decimal digits. -/
theorem digitChar_isDigit (d : Nat) (h : d < 10) : (digitChar d).isDigit = true := by
  interval_cases d <;> decide

/-- Code point of a digit character. -/
theorem digitChar_toNat (d : Nat) (h : d < 10) : (digitChar d).toNat = 48 + d := by
  interval_cases d <;> decide

/-- Digit characters are not whitespace. -/
theorem digitChar_not_ws (d : Nat) (h : d < 10) :
    (digitChar d).isWhitespace = false := by
  interval_cases d <;> decide

/-- A decimal digit is not a dollar sign. -/
theorem isDigit_ne_dollar (c : Char) (h : c.isDigit = true) : c ≠ '$' := by
  intro he
  subst he
  simp at h

/-- Every character `natDigits` produces over a digit accumulator is a digit. -/
theorem natDigits_digits : ∀ (fuel n : Nat) (acc : List Char),
    (∀ c ∈ acc, c.isDigit = true) → ∀ c ∈ natDigits fuel n acc, c.isDigit = true := by
  intro fuel
  induction fuel with
  | zero => intro n acc hacc; exact hacc
  | succ fuel ih =>
      intro n acc hacc c hc
      rw [natDigits] at hc
      have hacc2 : ∀ x ∈ digitChar (n % 10) :: acc, x.isDigit = true := by
        intro x hx
        rcases List.mem_cons.mp hx with h | h
        · rw [h]; exact digitChar_isDigit _ (Nat.mod_lt _ (by omega))
        · exact hacc x h
      by_cases hn : n < 10
      · rw [if_pos hn] at hc
        exact hacc2 c hc
      · rw [if_neg hn] at hc
        exact ih _ _ hacc2 c hc

/-- A `natDigits` rendering with positive fuel is non-empty. -/
theorem natDigits_ne_nil : ∀ (fuel n : Nat) (acc : List Char),
    natDigits fuel n acc = [] → acc = [] ∧ fuel = 0 := by
  intro fuel
  induction fuel with
  | zero => intro n acc h; exact ⟨h, rfl⟩
  | succ fuel ih =>
      intro n acc h
      rw [natDigits] at h
      by_cases hn : n < 10
      · rw [if_pos hn] at h
        simp at h
      · rw [if_neg hn] at h
        obtain ⟨hc, -⟩ := ih _ _ h
        simp at hc

/-- Folding the digit-value step over a `natDigits` rendering recovers the
number, continuing into the accumulator. -/
theorem natDigits_foldl : ∀ (fuel n : Nat) (acc : List Char), n < fuel →
    List.foldl (fun a c => a * 10 + (c.toNat - 48)) 0 (natDigits fuel n acc) =
      List.foldl (fun a c => a * 10 + (c.toNat - 48)) n acc := by
  intro fuel
  induction fuel with
  | zero => intro n acc h; omega
  | succ fuel ih =>
      intro n acc h
      rw [natDigits]
      by_cases hn : n < 10
      · rw [if_pos hn]
        rw [List.foldl_cons]
        rw [digitChar_toNat _ (Nat.mod_lt _ (by omega))]
        have : n % 10 = n := Nat.mod_eq_of_lt hn
        simp [this]
      · rw [if_neg hn]
        have hdiv : n / 10 < n := Nat.div_lt_self (by omega) (by omega)
        rw [ih (n / 10) _ (by omega)]
        rw [List.foldl_cons]
        rw [digitChar_toNat _ (Nat.mod_lt _ (by omega))]
        have : (n / 10) * 10 + (48 + n % 10 - 48) = n := by omega
        rw [this]

/-- Value of the decimal rendering of a natural number. -/
theorem digitsVal_natToStr (n : Nat) : digitsVal (strChars (natToStr n)) = n := by
  have h : strChars (natToStr n) = natDigits (n + 1) n [] := rfl
  rw [h]
  unfold digitsVal
  rw [natDigits_foldl (n + 1) n [] (by omega)]
  rfl

/-- `takeWhile` over a satisfying block stops exactly at a failing char. -/
theorem takeWhile_append_stop (p : Char → Bool) :
    ∀ (xs : List Char) (c : Char) (t : List Char),
      (∀ x ∈ xs, p x = true) → p c = false →
      List.takeWhile p (xs ++ c :: t) = xs := by
  intro xs
  induction xs with
  | nil => intro c t _ hc; simp [List.takeWhile, hc]
  | cons x rest ih =>
      intro c t hxs hc
      have hx : p x = true := hxs x (by simp)
      simp only [List.cons_append, List.takeWhile, hx]
      exact congrArg (x :: ·) (ih c t (fun y hy => hxs y (by simp [hy])) hc)

/-- `takeWhile` keeps an entirely satisfying list. -/
theorem takeWhile_all (p : Char → Bool) :
    ∀ (xs : List Char), (∀ x ∈ xs, p x = true) → List.takeWhile p xs = xs := by
  intro xs
  induction xs with
  | nil => intro _; rfl
  | cons x rest ih =>
      intro hxs
      have hx : p x = true := hxs x (by simp)
      simp only [List.takeWhile, hx]
      exact congrArg (x :: ·) (ih (fun y hy => hxs y (by simp [hy])))

/-- `dropWhile` keeps an entirely failing list. -/
theorem dropWhile_all_neg (p : Char → Bool) :
    ∀ (xs : List Char), (∀ x ∈ xs, p x = false) → List.dropWhile p xs = xs := by
  intro xs
  induction xs with
  | nil => intro _; rfl
  | cons x rest ih =>
      intro hxs
      have hx : p x = false := hxs x (by simp)
      simp [List.dropWhile, hx]

/-- Stripping leaves a string with no whitespace characters unchanged. -/
theorem pyStrip_id (l : List Char) (h : ∀ c ∈ l, c.isWhitespace = false) :
    pyStrip (ofChars l) = ofChars l := by
  unfold pyStrip
  have h1 : strChars (ofChars l) = l := rfl
  rw [h1, dropWhile_all_neg _ _ h,
    dropWhile_all_neg _ _ (fun c hc => h c (List.mem_reverse.mp hc)),
    List.reverse_reverse]

/-- Removing commas leaves a comma-free list unchanged. -/
theorem stripCommasL_id (l : List Char) (h : ∀ c ∈ l, c ≠ ',') :
    stripCommasL l = l := by
  unfold stripCommasL
  exact List.filter_eq_self.mpr (fun a ha => by simpa using h a ha)

/-- The dollar-anchored price regex finds nothing without a dollar sign. -/
theorem searchDollarP1_no_dollar :
    ∀ (cs : List Char), (∀ c ∈ cs, c ≠ '$') → searchDollarP1 cs = none := by
  intro cs
  induction cs with
  | nil => intro _; rfl
  | cons c rest ih =>
      intro h
      rw [searchDollarP1.eq_def]
      split
      · rfl
      · rename_i heq
        injection heq with h1 h2
        exact absurd h1 (h c (by simp))
      · rename_i heq
        injection heq with h1 h2
        subst h1
        subst h2
        exact ih (fun x hx => h x (by simp [hx]))

/-- A decimal digit is not a comma. -/
theorem isDigit_ne_comma (c : Char) (h : c.isDigit = true) : c ≠ ',' := by
  intro he
  subst he
  simp at h

/-- The `[0-9,]+\.[0-9]{2}` match on an all-digit run, a dot and two digits
takes the whole prefix. -/
theorem matchP1At_digits (D : List Char) (d1 d2 : Char) (t : List Char)
    (hD : ∀ c ∈ D, c.isDigit = true) (hne : D ≠ [])
    (h1 : d1.isDigit = true) (h2 : d2.isDigit = true) :
    matchP1At (D ++ '.' :: d1 :: d2 :: t) = some (D ++ ['.', d1, d2]) := by
  unfold matchP1At
  have hDC : ∀ c ∈ D, isDigitOrComma c = true := fun c hc => by
    simp [isDigitOrComma, hD c hc]
  have htw : List.takeWhile isDigitOrComma (D ++ '.' :: d1 :: d2 :: t) = D :=
    takeWhile_append_stop _ D '.' _ hDC (by decide)
  rw [htw]
  rw [if_neg (by simp [List.isEmpty_iff, hne])]
  rw [List.drop_left]
  simp [h1, h2]

/-- Python `float` on a digits-dot-digits rendering. -/
theorem pyFloat_dotted (D F : List Char)
    (hD : ∀ c ∈ D, c.isDigit = true) (hF : ∀ c ∈ F, c.isDigit = true)
    (hne : D ≠ []) :
    pyFloat (ofChars (D ++ '.' :: F)) =
      some (Rat.divInt (digitsVal D * 10 ^ F.length + digitsVal F)
        (10 ^ F.length)) := by
  unfold pyFloat
  have h1 : strChars (ofChars (D ++ '.' :: F)) = D ++ '.' :: F := rfl
  rw [h1]
  have htw : List.takeWhile Char.isDigit (D ++ '.' :: F) = D :=
    takeWhile_append_stop _ D '.' F hD (by decide)
  simp only [htw, List.drop_left, takeWhile_all Char.isDigit F hF,
    List.drop_length]
  rw [if_neg (by simp)]
  rw [if_neg (by simp [List.isEmpty_iff, hne])]

/-- A decimal digit is not whitespace. -/
theorem isDigit_not_ws (ch : Char) (h : ch.isDigit = true) :
    ch.isWhitespace = false := by
  simp only [Char.isWhitespace, Bool.or_eq_false_iff, decide_eq_false_iff_not]
  refine ⟨⟨⟨fun he => ?_, fun he => ?_⟩, fun he => ?_⟩, fun he => ?_⟩ <;>
    (subst he; simp at h)

/-- Character decomposition of the two-decimal rendering. -/
theorem renderCents_chars (c : Nat) :
    strChars (renderCents c) = strChars (natToStr (c / 100))
      ++ '.' :: [digitChar (c % 100 / 10 % 10), digitChar (c % 100 % 10)] := by
  simp [renderCents, pad2, strChars, ofChars, String.data_append]

/-- The integer-part rendering is all digits. -/
theorem natToStr_digits (n : Nat) :
    ∀ ch ∈ strChars (natToStr n), ch.isDigit = true := by
  have h : strChars (natToStr n) = natDigits (n + 1) n [] := rfl
  rw [h]
  exact natDigits_digits (n + 1) n [] (by simp)

/-- The integer-part rendering is non-empty. -/
theorem natToStr_ne_nil (n : Nat) : strChars (natToStr n) ≠ [] := by
  intro hc
  have h : strChars (natToStr n) = natDigits (n + 1) n [] := rfl
  rw [h] at hc
  have := (natDigits_ne_nil _ _ _ hc).2
  omega

/-- Value of the two fractional digit characters. -/
theorem digitsVal_pad2 (m : Nat) (hm : m < 100) :
    digitsVal [digitChar (m / 10 % 10), digitChar (m % 10)] = m := by
  have h1 : (digitChar (m / 10 % 10)).toNat = 48 + m / 10 % 10 :=
    digitChar_toNat _ (Nat.mod_lt _ (by omega))
  have h2 : (digitChar (m % 10)).toNat = 48 + m % 10 :=
    digitChar_toNat _ (Nat.mod_lt _ (by omega))
  simp [digitsVal, h1, h2]
  omega

/-- Cons-step equation of the unanchored price search. -/
theorem searchAnyP1_cons (c : Char) (rest : List Char) :
    searchAnyP1 (c :: rest) =
      match matchP1At (c :: rest) with
      | some g => some g
      | none => searchAnyP1 rest := rfl

/-- C9 (amended): price normalization is idempotent on whole-cent values —
whenever the retail parser normalizes a price element to `c / 100` currency
units (`Rat.divInt c 100`), re-running the parser on the two-decimal
rendering of that value yields the same value.  (A split strong/sup price
with a non-two-digit cents node can produce a fractional-cent value on which
re-parsing differs; see the counterexample.) -/
theorem newegg_price_idempotent_on_cents (e : Elem) (c : Nat)
    (_hv : neweggExtractPrice e = some (Rat.divInt c 100)) :
    neweggExtractPrice (Elem.leaf (renderCents c) []) =
      some (Rat.divInt c 100) := by
  have hD := natToStr_digits (c / 100)
  have hDne := natToStr_ne_nil (c / 100)
  have hchars := renderCents_chars c
  have hd1 : (digitChar (c % 100 / 10 % 10)).isDigit = true :=
    digitChar_isDigit _ (Nat.mod_lt _ (by omega))
  have hd2 : (digitChar (c % 100 % 10)).isDigit = true :=
    digitChar_isDigit _ (Nat.mod_lt _ (by omega))
  have hmem : ∀ (P : Char → Prop), (∀ ch, ch.isDigit = true → P ch) → P '.' →
      ∀ ch ∈ strChars (renderCents c), P ch := by
    intro P hdig hdot ch hch
    rw [hchars] at hch
    rcases List.mem_append.mp hch with hmem | hmem
    · exact hdig ch (hD ch hmem)
    · rcases List.mem_cons.mp hmem with rfl | hmem2
      · exact hdot
      · rcases List.mem_cons.mp hmem2 with rfl | hmem3
        · exact hdig _ hd1
        · rcases List.mem_cons.mp hmem3 with rfl | hmem4
          · exact hdig _ hd2
          · exact absurd hmem4 (List.not_mem_nil ch)
  have hstrip : pyStrip (renderCents c) = renderCents c :=
    pyStrip_id (strChars (renderCents c))
      (hmem (fun ch => ch.isWhitespace = false)
        (fun ch h => isDigit_not_ws ch h) (by decide))
  have hnd : searchDollarP1 (strChars (renderCents c)) = none :=
    searchDollarP1_no_dollar _
      (hmem (fun ch => ch ≠ '$') (fun ch h => isDigit_ne_dollar ch h) (by decide))
  have hany : searchAnyP1 (strChars (renderCents c)) =
      some (strChars (natToStr (c / 100))
        ++ ['.', digitChar (c % 100 / 10 % 10), digitChar (c % 100 % 10)]) := by
    rw [hchars]
    obtain ⟨d0, D0, hsplit⟩ := List.exists_cons_of_ne_nil hDne
    rw [hsplit, List.cons_append, searchAnyP1_cons, ← List.cons_append, ← hsplit]
    rw [matchP1At_digits _ _ _ [] hD hDne hd1 hd2]
  have hnc : stripCommasL (strChars (natToStr (c / 100))
      ++ ['.', digitChar (c % 100 / 10 % 10), digitChar (c % 100 % 10)]) =
      strChars (natToStr (c / 100))
        ++ ['.', digitChar (c % 100 / 10 % 10), digitChar (c % 100 % 10)] := by
    apply stripCommasL_id
    intro ch hch
    rw [← hchars] at hch
    exact hmem (fun ch => ch ≠ ',') (fun ch h => isDigit_ne_comma ch h)
      (by decide) ch hch
  have hpf := pyFloat_dotted (strChars (natToStr (c / 100)))
    [digitChar (c % 100 / 10 % 10), digitChar (c % 100 % 10)] hD
    (by
      intro ch hch
      rcases List.mem_cons.mp hch with rfl | hch2
      · exact hd1
      · rcases List.mem_cons.mp hch2 with rfl | hch3
        · exact hd2
        · exact absurd hch3 (List.not_mem_nil ch))
    hDne
  unfold neweggExtractPrice
  dsimp only [Elem.leaf, Elem.text, Elem.sel]
  rw [hstrip, hnd, hany]
  dsimp only
  rw [hnc, hpf]
  congr 1
  rw [digitsVal_natToStr, digitsVal_pad2 _ (Nat.mod_lt _ (by omega))]
  rw [show [digitChar (c % 100 / 10 % 10), digitChar (c % 100 % 10)].length = 2
    from rfl]
  rw [show ((10 : ℤ) ^ (2 : ℕ)) = 100 from by norm_num]
  congr 1
  omega

/-- Price element rendered as a split strong/sup pair with a three-digit
cents node (dollars "199", cents "999"). -/
def c9Elem : Elem :=
  Elem.node "" []
    (fun s =>
      if s = "strong" then some (Elem.leaf "199" [])
      else if s = "sup" then some (Elem.leaf "999" [])
      else none)
    (fun _ => [])

/-- C9 counterexample: the strong/sup path concatenates dollars and cents
text blindly (newegg.py line 409), so a three-digit sup yields the
fractional-cent value 199999/1000 (199.999); re-running the parser on its
two-decimal rendering "200.00" yields 200, not the original value — price
normalization is not idempotent as claimed. -/
theorem newegg_price_reparse_differs :
    neweggExtractPrice c9Elem = some (Rat.divInt 199999 1000) ∧
    fmt2 (Rat.divInt 199999 1000) = "200.00" ∧
    neweggExtractPrice (Elem.leaf (fmt2 (Rat.divInt 199999 1000)) []) =
      some (Rat.divInt 200 1) ∧
    Rat.divInt 200 1 ≠ Rat.divInt 199999 1000 := by decide

/-- Dollar-priced element realizing the whole-cent hypothesis. -/
def c9wElem : Elem := Elem.leaf "$1,299.99" []

/-- C9 witness: the amended idempotence at the claim's own example,
"$1,299.99" normalizing to 1299.99 (129999 cents). -/
theorem newegg_price_idempotent_witness :
    neweggExtractPrice (Elem.leaf (renderCents 129999) []) =
      some (Rat.divInt 129999 100) :=
  newegg_price_idempotent_on_cents c9wElem 129999 (by decide)
